import Mathlib

/-!
A shallow embedding of the mqtt_dali DALI controller (Rust) in Lean 4, together
with theorems settling the specification claims about it.

Conventions of the embedding:
* Rust `u8` / `u16` / `u32` values are `Nat`; explicit `% 256` appears exactly
  where the source performs an `as u8` truncating cast.  No arithmetic in the
  modelled code can overflow its Rust type (search addresses stay below 2^25).
* The `DaliController` trait object is modelled by an `Oracle`: a function from
  the history of bus operations (the trace, most recent last) to the bus reply.
  Each primitive appends its operation to the trace and reads the oracle.
  Transport-level `Result` failures of the controller abort the enclosing
  operation in the source; conditioning on a successful run, every interaction
  is describable by a total oracle, which is what we use.
* `error_stack` context wrapping (`change_context_lazy`) only decorates errors;
  the embedding keeps the underlying error variant and drops the decoration.
* Rust panics are modelled as the distinguished error `Err.panicked`, which
  propagates like an unwinding panic (every call site uses `?` in the source).
* In-place mutation of configuration structures is modelled by returning the
  (possibly partially) updated structure alongside the result, matching what
  the caller observes after the call, also on error paths.
* `loop`s bounded by a retry counter are modelled by structural recursion on
  that counter (fuel); the fuel values are the source's retry counts.
-/

/-- Decidable equality for `Except`, used to evaluate the embedded operations
on concrete inputs. -/
instance instDecidableEqExcept {ε α : Type} [DecidableEq ε] [DecidableEq α] :
    DecidableEq (Except ε α) := fun x y =>
  match x, y with
  | .error a, .error b =>
    if h : a = b then isTrue (by rw [h]) else isFalse (fun hh => h (Except.error.inj hh))
  | .error _, .ok _ => isFalse (fun hh => Except.noConfusion hh)
  | .ok _, .error _ => isFalse (fun hh => Except.noConfusion hh)
  | .ok a, .ok b =>
    if h : a = b then isTrue (by rw [h]) else isFalse (fun hh => h (Except.ok.inj hh))

namespace Dali

/-- Bus status, from `config_payload.rs`. -/
inductive BusStatus where
  | Active
  | NoPower
  | Overloaded
  | Unknown
deriving DecidableEq, Repr

/-- A light (channel) of a bus, from `config_payload.rs`. -/
structure Channel where
  short_address : Nat
  description : String
deriving DecidableEq, Repr

/-- A group of lights, from `config_payload.rs`. -/
structure Group where
  group_address : Nat
  description : String
  members : List Nat
deriving DecidableEq, Repr

/-- Configuration of one DALI bus, from `config_payload.rs`. -/
structure BusConfig where
  description : String
  status : BusStatus
  bus : Nat
  channels : List Channel
  groups : List Group
deriving DecidableEq, Repr

/-- The whole controller configuration, from `config_payload.rs`. -/
structure DaliConfig where
  name : String
  buses : List BusConfig
deriving DecidableEq, Repr

/-- Outcome of one DALI bus transaction, from `dali_manager.rs` (`DaliBusResult`). -/
inductive DaliBusResult where
  | none
  | receiveCollision
  | transmitCollision
  | value8 (b : Nat)
  | value16 (v : Nat)
  | value24 (v : Nat)
deriving DecidableEq, Repr

/-- The error taxonomy: `DaliManagerError` (dali_manager.rs) and `CommandError`
(mqtt.rs) merged into one flat type; `panicked` models a Rust panic. -/
inductive Err where
  | panicked (msg : String)
  | shortAddress (a : Nat)
  | groupAddress (g : Nat)
  | command (c : Nat)
  | fadeTime (t : Nat)
  | unexpectedStatus
  | groupAddFailed (a g : Nat)
  | groupRemoveFailed (a g : Nat)
  | noResult
  | busNumber (n : Nat)
  | busHasNoPower (n : Nat)
  | busOverloaded (n : Nat)
  | invalidBusStatus (n : Nat)
  | noMoreGroups (n : Nat)
  | noSuchGroup (n g : Nat)
deriving DecidableEq, Repr

/-- One operation sent to the `DaliController` trait object:
`send_2_bytes` or `send_2_bytes_repeat`. -/
inductive BusOp where
  | send2 (bus b1 b2 : Nat)
  | send2rep (bus b1 b2 : Nat)
deriving DecidableEq, Repr

/-- A deterministic model of the controller: the reply as a function of the
whole operation history (the operation being answered included, last). -/
def Oracle : Type := List BusOp → DaliBusResult

/-- `DaliController::send_2_bytes`: appends the op to the trace, reads the oracle. -/
def send_2_bytes (o : Oracle) (t : List BusOp) (bus b1 b2 : Nat) :
    List BusOp × DaliBusResult :=
  let t' := t ++ [BusOp.send2 bus b1 b2]
  (t', o t')

/-- `DaliController::send_2_bytes_repeat`. -/
def send_2_bytes_repeat (o : Oracle) (t : List BusOp) (bus b1 b2 : Nat) :
    List BusOp × DaliBusResult :=
  let t' := t ++ [BusOp.send2rep bus b1 b2]
  (t', o t')

/-- Modelled from the spec: numeric DALI command codes.  The module
`dali_commands` referenced by `dali_manager.rs` is not among the provided
sources; spec §9 lists the required commands and §3 ("DALI command code")
defines the `0x100` special-command flag.  Opcodes follow IEC 62386-102;
only their distinctness and the `0x100` flag are relevant to the claims. -/
def DALI_TERMINATE : Nat := 0x1a1

/-- Modelled from the spec: DATA TRANSFER REGISTER 0 special command. -/
def DALI_DATA_TRANSFER_REGISTER0 : Nat := 0x1a3

/-- Modelled from the spec: COMPARE special command. -/
def DALI_COMPARE : Nat := 0x1a9

/-- Modelled from the spec: SEARCHADDRH special command. -/
def DALI_SEARCHADDRH : Nat := 0x1b1

/-- Modelled from the spec: SEARCHADDRM special command. -/
def DALI_SEARCHADDRM : Nat := 0x1b3

/-- Modelled from the spec: SEARCHADDRL special command. -/
def DALI_SEARCHADDRL : Nat := 0x1b5

/-- Modelled from the spec: SET SHORT ADDRESS command (parameter via DTR0). -/
def DALI_SET_SHORT_ADDRESS : Nat := 0x80

/-- Modelled from the spec: ADD TO GROUP base command (group 0). -/
def DALI_ADD_TO_GROUP0 : Nat := 0x60

/-- Modelled from the spec: REMOVE FROM GROUP base command (group 0). -/
def DALI_REMOVE_FROM_GROUP0 : Nat := 0x70

/-- Modelled from the spec: QUERY GROUPS 0-7 command. -/
def DALI_QUERY_GROUPS_0_7 : Nat := 0xc0

/-- Modelled from the spec: QUERY GROUPS 8-15 command. -/
def DALI_QUERY_GROUPS_8_15 : Nat := 0xc1

namespace DaliManager

/-- `DaliManager::to_light_short_address`; the `panic!` branch is the
`Err.panicked` error. -/
def to_light_short_address (channel : Nat) : Except Err Nat :=
  if channel < 64 then .ok (channel <<< 1)
  else .error (.panicked "Invalid DALI short address")

/-- `DaliManager::to_light_group_address`; panics for `group ≥ 16`. -/
def to_light_group_address (group : Nat) : Except Err Nat :=
  if group < 16 then .ok (0x80 ||| (group <<< 1))
  else .error (.panicked "Invalid DALI group#")

/-- `DaliManager::to_command_short_address`. -/
def to_command_short_address (channel : Nat) : Except Err Nat :=
  match to_light_short_address channel with
  | .ok b => .ok (b ||| 0x01)
  | .error e => .error e

/-- `DaliManager::to_command_group_address`. -/
def to_command_group_address (group : Nat) : Except Err Nat :=
  match to_light_group_address group with
  | .ok b => .ok (b ||| 0x01)
  | .error e => .error e

/-- `DaliManager::send_command_to_address`. -/
def send_command_to_address (o : Oracle) (t : List BusOp)
    (bus command short_address : Nat) (repeat_cmd : Bool) :
    List BusOp × Except Err DaliBusResult :=
  if command > 0xff then (t, .error (.command command))
  else if short_address ≥ 64 then (t, .error (.shortAddress short_address))
  else
    match to_command_short_address short_address with
    | .error e => (t, .error e)
    | .ok b1 =>
      let b2 := command &&& 0xff
      if repeat_cmd then
        let (t, r) := send_2_bytes_repeat o t bus b1 b2
        (t, .ok r)
      else
        let (t, r) := send_2_bytes o t bus b1 b2
        (t, .ok r)

/-- `DaliManager::send_command_to_group`.  Note the range check in the source
is `group_address >= 64`, not `>= 16`. -/
def send_command_to_group (o : Oracle) (t : List BusOp)
    (bus command group_address : Nat) (repeat_cmd : Bool) :
    List BusOp × Except Err DaliBusResult :=
  if command > 0xff then (t, .error (.command command))
  else if group_address ≥ 64 then (t, .error (.groupAddress group_address))
  else
    match to_command_group_address group_address with
    | .error e => (t, .error e)
    | .ok b1 =>
      let b2 := command &&& 0xff
      if repeat_cmd then
        let (t, r) := send_2_bytes_repeat o t bus b1 b2
        (t, .ok r)
      else
        let (t, r) := send_2_bytes o t bus b1 b2
        (t, .ok r)

/-- `DaliManager::is_collision`. -/
def is_collision : DaliBusResult → Bool
  | .receiveCollision => true
  | .transmitCollision => true
  | _ => false

/-- The retry loop of `DaliManager::broadcast_command`: resends while the
reply is a collision; the source gives up after 301 collisions
(`collision_count > 300`), modelled as fuel 301. -/
def broadcast_command_loop (o : Oracle) (t : List BusOp)
    (bus b1 b2 : Nat) (repeat_cmd : Bool) : Nat → List BusOp × Except Err DaliBusResult
  | 0 => (t, .error .unexpectedStatus)
  | fuel + 1 =>
    let (t', r) := if repeat_cmd then send_2_bytes_repeat o t bus b1 b2
                   else send_2_bytes o t bus b1 b2
    if is_collision r then broadcast_command_loop o t' bus b1 b2 repeat_cmd fuel
    else (t', .ok r)

/-- `DaliManager::broadcast_command`: builds the broadcast / special-command
frame and retries on collisions. -/
def broadcast_command (o : Oracle) (t : List BusOp)
    (bus command parameter : Nat) (repeat_cmd : Bool) :
    List BusOp × Except Err DaliBusResult :=
  let b1 := if command &&& 0x100 ≠ 0 then command &&& 0xff else 0xff
  let b2 := if command &&& 0x100 ≠ 0 then parameter else command % 256
  broadcast_command_loop o t bus b1 b2 repeat_cmd 301

/-- `DaliManager::broadcast_command_allow_collision`: a single send, the raw
result returned (collisions included). -/
def broadcast_command_allow_collision (o : Oracle) (t : List BusOp)
    (bus command parameter : Nat) (repeat_cmd : Bool) :
    List BusOp × DaliBusResult :=
  let b1 := if command &&& 0x100 ≠ 0 then command &&& 0xff else 0xff
  let b2 := if command &&& 0x100 ≠ 0 then parameter else command % 256
  if repeat_cmd then send_2_bytes_repeat o t bus b1 b2
  else send_2_bytes o t bus b1 b2

/-- The retry loop of `DaliManager::send_command_to_address_and_get_byte`
(`retry_count = 4` in the source, modelled as fuel 4). -/
def send_get_byte_loop (o : Oracle) (t : List BusOp)
    (bus command short_address : Nat) (repeat_cmd : Bool) :
    Nat → List BusOp × Except Err Nat
  | 0 => (t, .error .noResult)
  | fuel + 1 =>
    match send_command_to_address o t bus command short_address repeat_cmd with
    | (t, .error e) => (t, .error e)
    | (t, .ok (.value8 b)) => (t, .ok b)
    | (t, .ok _) => send_get_byte_loop o t bus command short_address repeat_cmd fuel

/-- `DaliManager::send_command_to_address_and_get_byte`. -/
def send_command_to_address_and_get_byte (o : Oracle) (t : List BusOp)
    (bus command short_address : Nat) (repeat_cmd : Bool) :
    List BusOp × Except Err Nat :=
  send_get_byte_loop o t bus command short_address repeat_cmd 4

/-- `DaliManager::query_group_membership`. -/
def query_group_membership (o : Oracle) (t : List BusOp)
    (bus short_address : Nat) : List BusOp × Except Err Nat :=
  match send_command_to_address_and_get_byte o t bus DALI_QUERY_GROUPS_0_7 short_address false with
  | (t, .error e) => (t, .error e)
  | (t, .ok groups_0to7) =>
    match send_command_to_address_and_get_byte o t bus DALI_QUERY_GROUPS_8_15 short_address false with
    | (t, .error e) => (t, .error e)
    | (t, .ok groups_8to15) => (t, .ok ((groups_8to15 <<< 8) ||| groups_0to7))

/-- `DaliManager::is_group_member`. -/
def is_group_member (o : Oracle) (t : List BusOp)
    (bus short_address group_address : Nat) : List BusOp × Except Err Bool :=
  match query_group_membership o t bus short_address with
  | (t, .error e) => (t, .error e)
  | (t, .ok mask) => (t, .ok (((1 <<< group_address) &&& mask) ≠ 0))

/-- `DaliManager::remove_from_group` (single send-twice command). -/
def remove_from_group (o : Oracle) (t : List BusOp)
    (bus group_address short_address : Nat) : List BusOp × Except Err DaliBusResult :=
  send_command_to_address o t bus (DALI_REMOVE_FROM_GROUP0 + group_address) short_address true

/-- `DaliManager::add_to_group` (single send-twice command). -/
def add_to_group (o : Oracle) (t : List BusOp)
    (bus group_address short_address : Nat) : List BusOp × Except Err DaliBusResult :=
  send_command_to_address o t bus (DALI_ADD_TO_GROUP0 + group_address) short_address true

/-- The retry loop of `DaliManager::add_to_group_and_verify`
(`retry_count = 8` in the source). -/
def add_to_group_verify_loop (o : Oracle) (t : List BusOp)
    (bus group_address short_address : Nat) : Nat → List BusOp × Except Err DaliBusResult
  | 0 => (t, .error (.groupAddFailed short_address group_address))
  | fuel + 1 =>
    match add_to_group o t bus group_address short_address with
    | (t, .error e) => (t, .error e)
    | (t, .ok _) =>
      match is_group_member o t bus short_address group_address with
      | (t, .error e) => (t, .error e)
      | (t, .ok true) => (t, .ok .none)
      | (t, .ok false) => add_to_group_verify_loop o t bus group_address short_address fuel

/-- `DaliManager::add_to_group_and_verify`. -/
def add_to_group_and_verify (o : Oracle) (t : List BusOp)
    (bus group_address short_address : Nat) : List BusOp × Except Err DaliBusResult :=
  add_to_group_verify_loop o t bus group_address short_address 8

/-- The retry loop of `DaliManager::remove_from_group_and_verify`
(`retry_count = 3` in the source). -/
def remove_from_group_verify_loop (o : Oracle) (t : List BusOp)
    (bus group_address short_address : Nat) : Nat → List BusOp × Except Err DaliBusResult
  | 0 => (t, .error (.groupRemoveFailed short_address group_address))
  | fuel + 1 =>
    match remove_from_group o t bus group_address short_address with
    | (t, .error e) => (t, .error e)
    | (t, .ok _) =>
      match is_group_member o t bus short_address group_address with
      | (t, .error e) => (t, .error e)
      | (t, .ok false) => (t, .ok .none)
      | (t, .ok true) => remove_from_group_verify_loop o t bus group_address short_address fuel

/-- `DaliManager::remove_from_group_and_verify`. -/
def remove_from_group_and_verify (o : Oracle) (t : List BusOp)
    (bus group_address short_address : Nat) : List BusOp × Except Err DaliBusResult :=
  remove_from_group_verify_loop o t bus group_address short_address 3

/-- `DaliManager::set_dtr`: broadcast DTR0 with the value. -/
def set_dtr (o : Oracle) (t : List BusOp) (bus value : Nat) :
    List BusOp × Except Err DaliBusResult :=
  broadcast_command o t bus DALI_DATA_TRANSFER_REGISTER0 value false

end DaliManager

/-- `BusConfig::remove_channel` (setup.rs): removes the first channel with the
given short address from the list and returns it (Rust: `position` + `Vec::remove`,
here as one recursive pass over the list). -/
def removeChannelAux : List Channel → Nat → Option Channel × List Channel
  | [], _ => (none, [])
  | c :: rest, a =>
    if c.short_address = a then (some c, rest)
    else
      let (r, rest') := removeChannelAux rest a
      (r, c :: rest')

/-- `BusConfig::remove_channel` lifted to `BusConfig`. -/
def BusConfig.remove_channel (cfg : BusConfig) (short_address : Nat) :
    Option Channel × BusConfig :=
  let (r, channels') := removeChannelAux cfg.channels short_address
  (r, { cfg with channels := channels' })

/-- `BusConfig::remove_from_group` (setup.rs): removes the first occurrence of
the short address from the members of the first group with the given address
(Rust: `find` + `position` + `Vec::remove`; the returned `bool` is ignored by
the only caller modelled here, so only the updated groups are returned). -/
def removeMemberIn : List Group → Nat → Nat → List Group
  | [], _, _ => []
  | grp :: rest, g, a =>
    if grp.group_address = g then
      { grp with members := grp.members.erase a } :: rest
    else grp :: removeMemberIn rest g a

namespace DaliManager

/-- `DaliManager::change_short_address`: DTR := new address, then
SET_SHORT_ADDRESS (send-twice) to the existing address; finally the config is
updated (remove the old channel, and unless the new address is 0xff re-insert
a channel with the preserved description at the end of the list). -/
def change_short_address (o : Oracle) (t : List BusOp) (bus_config : BusConfig)
    (existing_address new_address : Nat) :
    List BusOp × BusConfig × Except Err DaliBusResult :=
  if existing_address ≥ 64 then
    (t, bus_config, .error (.panicked "Invalid existing short address"))
  else if new_address ≥ 64 ∧ new_address ≠ 0xff then
    (t, bus_config, .error (.panicked "Invalid new short address"))
  else
    let bus := bus_config.bus
    match set_dtr o t bus new_address with
    | (t, .error e) => (t, bus_config, .error e)
    | (t, .ok _) =>
      match send_command_to_address o t bus DALI_SET_SHORT_ADDRESS existing_address true with
      | (t, .error e) => (t, bus_config, .error e)
      | (t, .ok _) =>
        let (removed, bus_config) := bus_config.remove_channel existing_address
        let description :=
          match removed with
          | some existing_channel => existing_channel.description
          | none => "Light " ++ toString new_address
        let bus_config :=
          if new_address ≠ 0xff then
            { bus_config with
                channels := bus_config.channels ++ [⟨new_address, description⟩] }
          else bus_config
        (t, bus_config, .ok .none)

/-- The `for group_address in 0..16` loop of `DaliManager::remove_short_address`:
for every set bit of the membership mask, remove the device from that group on
the bus and in the configuration.  `g` counts up to 16. -/
def remove_short_address_groups (o : Oracle) (t : List BusOp) (bus_config : BusConfig)
    (existing_address groups : Nat) : Nat → Nat → List BusOp × BusConfig × Except Err Unit
  | _, 0 => (t, bus_config, .ok ())
  | g, fuel + 1 =>
    if groups &&& (1 <<< g) ≠ 0 then
      match remove_from_group o t bus_config.bus g existing_address with
      | (t, .error e) => (t, bus_config, .error e)
      | (t, .ok _) =>
        let bus_config := { bus_config with
          groups := removeMemberIn bus_config.groups g existing_address }
        remove_short_address_groups o t bus_config existing_address groups (g + 1) fuel
    else
      remove_short_address_groups o t bus_config existing_address groups (g + 1) fuel

/-- `DaliManager::remove_short_address`: query the device's group-membership
mask, remove it from every group whose bit is set (device and config), then
change its short address to 0xff. -/
def remove_short_address (o : Oracle) (t : List BusOp) (bus_config : BusConfig)
    (existing_address : Nat) : List BusOp × BusConfig × Except Err DaliBusResult :=
  match query_group_membership o t bus_config.bus existing_address with
  | (t, .error e) => (t, bus_config, .error e)
  | (t, .ok groups) =>
    match remove_short_address_groups o t bus_config existing_address groups 0 16 with
    | (t, bus_config, .error e) => (t, bus_config, .error e)
    | (t, bus_config, .ok _) =>
      change_short_address o t bus_config existing_address 0xff

/-- `bus_config.groups.iter().find(|g| g.group_address == group_address).is_some()`. -/
def hasGroup (groups : List Group) (group_address : Nat) : Bool :=
  groups.any (fun g => g.group_address == group_address)

/-- Members of the first group with the given address, if any
(the `iter_mut().find` reading side of `match_group`). -/
def getMembersIn : List Group → Nat → Option (List Nat)
  | [], _ => none
  | grp :: rest, g =>
    if grp.group_address = g then some grp.members else getMembersIn rest g

/-- Write back the member list of the first group with the given address
(the `iter_mut().find` writing side of `match_group`). -/
def setMembersIn : List Group → Nat → List Nat → List Group
  | [], _, _ => []
  | grp :: rest, g, m =>
    if grp.group_address = g then { grp with members := m } :: rest
    else grp :: setMembersIn rest g m

/-- The per-channel loop of `DaliManager::match_group`: for each channel, if
its description matches and it is not a member, add it on the device
(`add_to_group_and_verify`) and append it to the member list; if it does not
match and it is a member, remove it on the device
(`remove_from_group_and_verify`) and remove the first occurrence from the
member list.  Device failures abort the loop, keeping the partial member list.
The optional progress callback of the source only produces output and is not
modelled. -/
def match_group_channels (o : Oracle) (bus group_address : Nat) (re : String → Bool) :
    List Channel → List BusOp → List Nat → List BusOp × List Nat × Except Err Unit
  | [], t, m => (t, m, .ok ())
  | light :: rest, t, m =>
    if re light.description then
      if light.short_address ∈ m then
        match_group_channels o bus group_address re rest t m
      else
        match add_to_group_and_verify o t bus group_address light.short_address with
        | (t, .error e) => (t, m, .error e)
        | (t, .ok _) =>
          match_group_channels o bus group_address re rest t (m ++ [light.short_address])
    else
      if light.short_address ∈ m then
        match remove_from_group_and_verify o t bus group_address light.short_address with
        | (t, .error e) => (t, m, .error e)
        | (t, .ok _) =>
          match_group_channels o bus group_address re rest t (m.erase light.short_address)
      else
        match_group_channels o bus group_address re rest t m

/-- `DaliManager::match_group`.  The compiled regex is abstracted as the
predicate `re` over descriptions (a regex-compile failure in the source aborts
before any mutation, so a run that gets past compilation is a run with some
such predicate).  A group with the requested address is created when absent,
then the channel loop reconciles its member list. -/
def match_group (o : Oracle) (t : List BusOp) (bus_config : BusConfig)
    (group_address : Nat) (re : String → Bool) :
    List BusOp × BusConfig × Except Err DaliBusResult :=
  let groups :=
    if hasGroup bus_config.groups group_address then bus_config.groups
    else bus_config.groups ++ [⟨group_address, "New-Group " ++ toString group_address, []⟩]
  match getMembersIn groups group_address with
  | none => (t, { bus_config with groups }, .error (.panicked "unwrap: group not found"))
  | some members =>
    match match_group_channels o bus_config.bus group_address re bus_config.channels t members with
    | (t, m, .error e) =>
      (t, { bus_config with groups := setMembersIn groups group_address m }, .error e)
    | (t, m, .ok _) =>
      (t, { bus_config with groups := setMembersIn groups group_address m }, .ok .none)

end DaliManager

/-- The commissioning iterator state (`DaliBusIterator`, dali_manager.rs). -/
structure DaliBusIterator where
  bus : Nat
  previous_low_byte : Option Nat
  previous_mid_byte : Option Nat
  previous_high_byte : Option Nat
  short_address : Nat
  terminate : Bool
deriving DecidableEq, Repr

namespace DaliBusIterator

/-- The iterator state produced by `DaliBusIterator::new` (its three setup
broadcasts — TERMINATE, INITIALISE, RANDOMISE — precede any search traffic and
involve no SEARCHADDR or COMPARE frames; the claims below start from the
returned state). -/
def fresh (bus : Nat) : DaliBusIterator :=
  { bus
    previous_low_byte := none
    previous_mid_byte := none
    previous_high_byte := none
    short_address := 0
    terminate := false }

/-- `DaliBusIterator::diff_value`. -/
def diff_value : Option Nat → Nat → Option Nat
  | none, n => some n
  | some previous, n => if previous ≠ n then some n else none

/-- `DaliBusIterator::send_search_address`: compute which of the three search
address bytes changed, record the new bytes, and broadcast SEARCHADDRL/M/L
only for the changed slots (low, then mid, then high; `as u8` casts are
`% 256`). -/
def send_search_address (o : Oracle) (t : List BusOp) (it : DaliBusIterator)
    (search_address : Nat) : List BusOp × DaliBusIterator × Except Err DaliBusResult :=
  let low := diff_value it.previous_low_byte (search_address % 256)
  let mid := diff_value it.previous_mid_byte ((search_address >>> 8) % 256)
  let high := diff_value it.previous_high_byte ((search_address >>> 16) % 256)
  let it := { it with
    previous_low_byte := some (search_address % 256)
    previous_mid_byte := some ((search_address >>> 8) % 256)
    previous_high_byte := some ((search_address >>> 16) % 256) }
  match low with
  | some lowv =>
    match DaliManager.broadcast_command o t it.bus DALI_SEARCHADDRL lowv false with
    | (t, .error e) => (t, it, .error e)
    | (t, .ok _) => send_search_address_mid o t it mid high
  | none => send_search_address_mid o t it mid high
where
  /-- the `if let Some(mid)` part of `send_search_address`. -/
  send_search_address_mid (o : Oracle) (t : List BusOp) (it : DaliBusIterator)
      (mid high : Option Nat) : List BusOp × DaliBusIterator × Except Err DaliBusResult :=
    match mid with
    | some midv =>
      match DaliManager.broadcast_command o t it.bus DALI_SEARCHADDRM midv false with
      | (t, .error e) => (t, it, .error e)
      | (t, .ok _) => send_search_address_high o t it high
    | none => send_search_address_high o t it high
  /-- the `if let Some(high)` part of `send_search_address`. -/
  send_search_address_high (o : Oracle) (t : List BusOp) (it : DaliBusIterator)
      (high : Option Nat) : List BusOp × DaliBusIterator × Except Err DaliBusResult :=
    match high with
    | some highv =>
      match DaliManager.broadcast_command o t it.bus DALI_SEARCHADDRH highv false with
      | (t, .error e) => (t, it, .error e)
      | (t, .ok _) => (t, it, .ok .none)
    | none => (t, it, .ok .none)

/-- `DaliBusIterator::is_random_address_le`: broadcast COMPARE allowing
collisions; a `None` reply recurses while `retry > 0`, any other reply is
`true`.  With a total oracle the transport cannot fail, so the result is a
plain `Bool`.  (The retry counter comes before the trace to make the
structural recursion on it evident.) -/
def is_random_address_le (o : Oracle) (bus : Nat) :
    Nat → List BusOp → List BusOp × Bool
  | 0, t =>
    match DaliManager.broadcast_command_allow_collision o t bus DALI_COMPARE 0 false with
    | (t, .none) => (t, false)
    | (t, _) => (t, true)
  | retry + 1, t =>
    match DaliManager.broadcast_command_allow_collision o t bus DALI_COMPARE 0 false with
    | (t, .none) => is_random_address_le o bus retry t
    | (t, _) => (t, true)

/-- The `while delta > 0` loop of `find_next_device`.  The loop halves `delta`
each iteration, so it always ends; the fuel argument (32 at the call site)
strictly dominates the 23 iterations reachable from `delta = 0x400000` and the
fuel-exhausted branch is unreachable there (`find_loop_progress` below).
Returns the trace, iterator, final search address, the `(short_address, step)`
pairs passed to the progress callback, and the outcome. -/
def find_loop (o : Oracle) :
    Nat → List BusOp → DaliBusIterator → Nat → Nat → Nat → List (Nat × Nat) →
    List BusOp × DaliBusIterator × Nat × List (Nat × Nat) × Except Err Unit
  | 0, t, it, sa, _, _, prog => (t, it, sa, prog, .error (.panicked "loop fuel exhausted"))
  | fuel + 1, t, it, search_address, delta, step, prog =>
    if delta > 0 then
      match send_search_address o t it search_address with
      | (t, it, .error e) => (t, it, search_address, prog, .error e)
      | (t, it, .ok _) =>
        let (t, random_address_le) := is_random_address_le o it.bus 2 t
        let search_address :=
          if random_address_le then search_address - delta else search_address + delta
        let delta := delta >>> 1
        let prog := prog ++ [(it.short_address, step)]
        find_loop o fuel t it search_address delta (step + 1) prog
    else (t, it, search_address, prog, .ok ())

/-- The observable outcome of one `find_next_device` call: the trace, the
iterator state, the progress-callback calls, the number of post-loop
(confirmation) `is_random_address_le` cycles, and the result. -/
structure FindOutcome where
  trace : List BusOp
  iter : DaliBusIterator
  progressCalls : List (Nat × Nat)
  confirmCompares : Nat
  outcome : Except Err (Option Nat)
deriving Repr

/-- The tail of `find_next_device` after the confirmation step: end of
sequence (TERMINATE) when the search address left the 24-bit range, otherwise
yield the short-address counter and post-increment it. -/
def find_finish (o : Oracle) (t : List BusOp) (it : DaliBusIterator)
    (search_address : Nat) (prog : List (Nat × Nat)) (confirms : Nat) : FindOutcome :=
  if search_address > 0xffffff then
    match DaliManager.broadcast_command o t it.bus DALI_TERMINATE 0 false with
    | (t, .error e) => ⟨t, it, prog, confirms, .error e⟩
    | (t, .ok _) => ⟨t, it, prog, confirms, .ok none⟩
  else
    ⟨t, { it with short_address := it.short_address + 1 }, prog, confirms,
      .ok (some it.short_address)⟩

/-- The confirmation step and yield of `find_next_device` — the straight-line
code after the `while` loop: send the final search address, COMPARE; when the
reply is negative try `search_address + 1` with one further COMPARE (whose
result the source drops); then terminate-or-yield via `find_finish`. -/
def find_confirm (o : Oracle) (t : List BusOp) (it : DaliBusIterator)
    (sa : Nat) (prog : List (Nat × Nat)) : FindOutcome :=
  match send_search_address o t it sa with
  | (t, it, .error e) => ⟨t, it, prog, 0, .error e⟩
  | (t, it, .ok _) =>
    let (t, le) := is_random_address_le o it.bus 2 t
    if le then find_finish o t it sa prog 1
    else
      let sa := sa + 1
      match send_search_address o t it sa with
      | (t, it, .error e) => ⟨t, it, prog, 1, .error e⟩
      | (t, it, .ok _) =>
        let (t, _) := is_random_address_le o it.bus 2 t
        find_finish o t it sa prog 2

/-- `DaliBusIterator::find_next_device`: after an optional termination
broadcast, run the binary search from `search_address = 0x800000`,
`delta = 0x400000`, then confirm and yield (`find_confirm`). -/
def find_next_device (o : Oracle) (t : List BusOp) (it : DaliBusIterator) : FindOutcome :=
  if it.terminate then
    match DaliManager.broadcast_command o t it.bus DALI_TERMINATE 0 false with
    | (t, .error e) => ⟨t, it, [], 0, .error e⟩
    | (t, .ok _) => ⟨t, it, [], 0, .ok none⟩
  else
    match find_loop o 32 t it 0x800000 0x400000 0 [] with
    | (t, it, _sa, prog, .error e) => ⟨t, it, prog, 0, .error e⟩
    | (t, it, sa, prog, .ok _) => find_confirm o t it sa prog

end DaliBusIterator

/-- Rename the first channel with the given short address
(the `iter_mut().find` + assignment of `MqttDali::rename_light`). -/
def renameChannelIn : List Channel → Nat → String → Option (List Channel)
  | [], _, _ => none
  | c :: rest, a, name =>
    if c.short_address = a then some ({ c with description := name } :: rest)
    else (renameChannelIn rest a name).map (c :: ·)

/-- Rename the first group with the given group address
(the `iter_mut().find` + assignment of `MqttDali::rename_group`). -/
def renameGroupIn : List Group → Nat → String → Option (List Group)
  | [], _, _ => none
  | g :: rest, a, name =>
    if g.group_address = a then some ({ g with description := name } :: rest)
    else (renameGroupIn rest a name).map (g :: ·)

/-- Remove the first group with the given group address
(`position` + `Vec::remove` in `MqttDali::remove_group`). -/
def eraseGroupIn : List Group → Nat → List Group
  | [], _ => []
  | g :: rest, a =>
    if g.group_address = a then rest else g :: eraseGroupIn rest a

/-- Append the member to the first group with the given address unless already
present (the tail of `MqttDali::add_to_group`). -/
def pushMemberIn : List Group → Nat → Nat → List Group
  | [], _, _ => []
  | grp :: rest, g, a =>
    if grp.group_address = g then
      (if a ∈ grp.members then grp else { grp with members := grp.members ++ [a] }) :: rest
    else grp :: pushMemberIn rest g a

namespace MqttDali

/-- `MqttDali::check_bus_status`. -/
def check_bus_status (bus_number : Nat) : BusStatus → Except Err DaliBusResult
  | .Active => .ok .none
  | .NoPower => .error (.busHasNoPower bus_number)
  | .Overloaded => .error (.busOverloaded bus_number)
  | .Unknown => .error (.invalidBusStatus bus_number)

/-- `MqttDali::rename_bus`.  Note: no bus-status check.  The oracle and trace
are threaded to make "no bus I/O" an explicit conclusion. -/
def rename_bus (_o : Oracle) (t : List BusOp) (cfg : DaliConfig)
    (bus_number : Nat) (name : String) : List BusOp × DaliConfig × Except Err DaliBusResult :=
  match cfg.buses[bus_number]? with
  | none => (t, cfg, .error (.busNumber bus_number))
  | some bus =>
    (t, { cfg with buses := cfg.buses.set bus_number { bus with description := name } },
      .ok .none)

/-- `MqttDali::rename_light`.  Note: no bus-status check. -/
def rename_light (_o : Oracle) (t : List BusOp) (cfg : DaliConfig)
    (bus_number short_address : Nat) (name : String) :
    List BusOp × DaliConfig × Except Err DaliBusResult :=
  match cfg.buses[bus_number]? with
  | none => (t, cfg, .error (.busNumber bus_number))
  | some bus =>
    match renameChannelIn bus.channels short_address name with
    | none => (t, cfg, .error (.shortAddress short_address))
    | some channels' =>
      (t, { cfg with buses := cfg.buses.set bus_number { bus with channels := channels' } },
        .ok .none)

/-- `MqttDali::rename_group`.  Note: no bus-status check. -/
def rename_group (_o : Oracle) (t : List BusOp) (cfg : DaliConfig)
    (bus_number group_address : Nat) (name : String) :
    List BusOp × DaliConfig × Except Err DaliBusResult :=
  match cfg.buses[bus_number]? with
  | none => (t, cfg, .error (.busNumber bus_number))
  | some bus =>
    match renameGroupIn bus.groups group_address name with
    | none => (t, cfg, .error (.groupAddress group_address))
    | some groups' =>
      (t, { cfg with buses := cfg.buses.set bus_number { bus with groups := groups' } },
        .ok .none)

/-- `MqttDali::new_group`: the first (smallest) group address in `0..16` not
yet present on the bus gets a fresh group `Group {address}` with no members;
`NoMoreGroups` when all 16 are taken.  Note: no bus-status check and no bus
I/O. -/
def new_group (_o : Oracle) (t : List BusOp) (cfg : DaliConfig)
    (bus_number : Nat) : List BusOp × DaliConfig × Except Err DaliBusResult :=
  match cfg.buses[bus_number]? with
  | none => (t, cfg, .error (.busNumber bus_number))
  | some bus =>
    match (List.range 16).find?
        (fun group_address =>
          ! bus.groups.any (fun group => group.group_address == group_address)) with
    | some group_address =>
      let bus := { bus with
        groups := bus.groups ++ [⟨group_address, "Group " ++ toString group_address, []⟩] }
      (t, { cfg with buses := cfg.buses.set bus_number bus }, .ok .none)
    | none => (t, cfg, .error (.noMoreGroups bus_number))

/-- The `for short_address in group.members` device loop of
`MqttDali::remove_group`. -/
def remove_group_device_loop (o : Oracle) (bus_number group_address : Nat) :
    List Nat → List BusOp → List BusOp × Except Err Unit
  | [], t => (t, .ok ())
  | short_address :: rest, t =>
    match DaliManager.remove_from_group o t bus_number group_address short_address with
    | (t, .error e) => (t, .error e)
    | (t, .ok _) => remove_group_device_loop o bus_number group_address rest t

/-- `MqttDali::remove_group`: bus-status check first; then, if the group is
non-empty (and the status re-check passes), remove each member on the device;
finally delete the group from the configuration. -/
def remove_group (o : Oracle) (t : List BusOp) (cfg : DaliConfig)
    (bus_number group_address : Nat) : List BusOp × DaliConfig × Except Err DaliBusResult :=
  match cfg.buses[bus_number]? with
  | none => (t, cfg, .error (.busNumber bus_number))
  | some bus =>
    match check_bus_status bus_number bus.status with
    | .error e => (t, cfg, .error e)
    | .ok _ =>
      match DaliManager.getMembersIn bus.groups group_address with
      | none => (t, cfg, .error (.noSuchGroup bus_number group_address))
      | some members =>
        let (t, r) :=
          if members ≠ [] ∧ (check_bus_status bus_number bus.status).isOk then
            remove_group_device_loop o bus_number group_address members t
          else (t, .ok ())
        match r with
        | .error e => (t, cfg, .error e)
        | .ok _ =>
          let bus := { bus with groups := eraseGroupIn bus.groups group_address }
          (t, { cfg with buses := cfg.buses.set bus_number bus }, .ok .none)

/-- `MqttDali::add_to_group`: a missing group is inserted (empty) BEFORE the
bus-status check and the device transaction; on any later failure the inserted
group remains in the configuration. -/
def add_to_group (o : Oracle) (t : List BusOp) (cfg : DaliConfig)
    (bus_number group_address short_address : Nat) :
    List BusOp × DaliConfig × Except Err DaliBusResult :=
  match cfg.buses[bus_number]? with
  | none => (t, cfg, .error (.busNumber bus_number))
  | some bus =>
    let bus :=
      if DaliManager.hasGroup bus.groups group_address then bus
      else { bus with
        groups := bus.groups ++ [⟨group_address, "Group " ++ toString group_address, []⟩] }
    let cfg := { cfg with buses := cfg.buses.set bus_number bus }
    match check_bus_status bus_number bus.status with
    | .error e => (t, cfg, .error e)
    | .ok _ =>
      match DaliManager.add_to_group_and_verify o t bus_number group_address short_address with
      | (t, .error e) => (t, cfg, .error e)
      | (t, .ok _) =>
        let bus := { bus with groups := pushMemberIn bus.groups group_address short_address }
        (t, { cfg with buses := cfg.buses.set bus_number bus }, .ok .none)

/-- `MqttDali::remove_from_group`: only when the light is currently a member
does it check the bus status and run the device transaction; a non-member is
a silent success. -/
def remove_from_group (o : Oracle) (t : List BusOp) (cfg : DaliConfig)
    (bus_number group_address short_address : Nat) :
    List BusOp × DaliConfig × Except Err DaliBusResult :=
  match cfg.buses[bus_number]? with
  | none => (t, cfg, .error (.busNumber bus_number))
  | some bus =>
    match DaliManager.getMembersIn bus.groups group_address with
    | none => (t, cfg, .error (.noSuchGroup bus_number group_address))
    | some members =>
      if short_address ∈ members then
        match check_bus_status bus_number bus.status with
        | .error e => (t, cfg, .error e)
        | .ok _ =>
          match DaliManager.remove_from_group_and_verify o t bus_number group_address short_address with
          | (t, .error e) => (t, cfg, .error e)
          | (t, .ok _) =>
            let bus := { bus with
              groups := DaliManager.setMembersIn bus.groups group_address
                (members.erase short_address) }
            (t, { cfg with buses := cfg.buses.set bus_number bus }, .ok .none)
      else (t, cfg, .ok .none)

/-- `MqttDali::match_group`: bus-status check, then the manager's match-group
engine on this bus; the bus configuration is updated in place in either case. -/
def match_group (o : Oracle) (t : List BusOp) (cfg : DaliConfig)
    (bus_number group_address : Nat) (re : String → Bool) :
    List BusOp × DaliConfig × Except Err DaliBusResult :=
  match cfg.buses[bus_number]? with
  | none => (t, cfg, .error (.busNumber bus_number))
  | some bus =>
    match check_bus_status bus_number bus.status with
    | .error e => (t, cfg, .error e)
    | .ok _ =>
      match DaliManager.match_group o t bus group_address re with
      | (t, bus', .error e) =>
        (t, { cfg with buses := cfg.buses.set bus_number bus' }, .error e)
      | (t, bus', .ok _) =>
        (t, { cfg with buses := cfg.buses.set bus_number bus' }, .ok .none)

/-- `MqttDali::remove_short_address`: bus-status check, then the manager's
`remove_short_address` on this bus. -/
def remove_short_address (o : Oracle) (t : List BusOp) (cfg : DaliConfig)
    (bus_number short_address : Nat) : List BusOp × DaliConfig × Except Err DaliBusResult :=
  match cfg.buses[bus_number]? with
  | none => (t, cfg, .error (.busNumber bus_number))
  | some bus =>
    match check_bus_status bus_number bus.status with
    | .error e => (t, cfg, .error e)
    | .ok _ =>
      match DaliManager.remove_short_address o t bus short_address with
      | (t, bus', .error e) =>
        (t, { cfg with buses := cfg.buses.set bus_number bus' }, .error e)
      | (t, bus', .ok _) =>
        (t, { cfg with buses := cfg.buses.set bus_number bus' }, .ok .none)

end MqttDali

/-- The inbound command envelope (`DaliCommand`, command_payload.rs),
restricted to the 15 variants dispatched by `MqttDali::run_session`. -/
inductive DaliCommand where
  | setLightBrightness (bus address value : Nat)
  | setGroupBrightness (bus group value : Nat)
  | updateBusStatus
  | renameBus (bus : Nat) (name : String)
  | renameLight (bus address : Nat) (name : String)
  | renameGroup (bus group : Nat) (name : String)
  | newGroup (bus : Nat)
  | addToGroup (bus group address : Nat)
  | matchGroup (bus group : Nat) (pattern_text : String)
  | removeGroup (bus group : Nat)
  | removeFromGroup (bus group address : Nat)
  | findAllLights (bus : Nat)
  | findNewLights (bus : Nat)
  | queryLightStatus (bus address : Nat)
  | removeShortAddress (bus address : Nat)
deriving DecidableEq, Repr

namespace MqttDali

/-- The `republish_config` flag as left by the command dispatch `match` of
`MqttDali::run_session`: initialised `true`, assigned `false` in exactly the
`SetLightBrightness`, `SetGroupBrightness`, `QueryLightStatus` and
`RemoveShortAddress` arms. -/
def republish_config : DaliCommand → Bool
  | .setLightBrightness _ _ _ => false
  | .setGroupBrightness _ _ _ => false
  | .queryLightStatus _ _ => false
  | .removeShortAddress _ _ => false
  | _ => true

/-- The messages `run_session` publishes after executing one command. -/
inductive SessionPub where
  | statusOk
  | statusError
  | configPublish
  | configSave
deriving DecidableEq, Repr

/-- The publish/persist tail of `MqttDali::run_session` for one command:
an error publishes the error string to the status topic; success publishes
`"OK"` and, when the command's `republish_config` flag is still set, publishes
the configuration snapshot to the config topic and saves the config file. -/
def session_publishes (command : DaliCommand) (succeeded : Bool) : List SessionPub :=
  if succeeded then
    [.statusOk] ++ (if republish_config command then [.configPublish, .configSave] else [])
  else [.statusError]

end MqttDali

/-! ### Verification harness: concrete oracles, trace projections, sample configurations -/

/-- An oracle whose bus never answers (`DaliBusResult::None` to everything). -/
def allNoneOracle : Oracle := fun _ => .none

/-- An oracle whose bus answers every frame with `Value8 0xff` (in particular
every group-membership query reports membership of all 16 groups). -/
def allValue255Oracle : Oracle := fun _ => .value8 0xff

/-- The frame broadcast by one COMPARE (special command `0x1a9`, parameter 0,
single shot). -/
def compare_op (bus : Nat) : BusOp := .send2 bus 0xa9 0

/-- Iterate `send_search_address` over a list of successive search addresses,
propagating the iterator state and stopping on the first error, exactly as the
`?`-operator does at the call sites in `find_next_device`. -/
def send_search_sequence (o : Oracle) :
    List Nat → List BusOp → DaliBusIterator →
    List BusOp × DaliBusIterator × Except Err Unit
  | [], t, it => (t, it, .ok ())
  | sa :: rest, t, it =>
    match DaliBusIterator.send_search_address o t it sa with
    | (t, it, .ok _) => send_search_sequence o rest t it
    | (t, it, .error _) => (t, it, .error (.panicked "aborted"))

/-- The parameter bytes of all frames in the trace whose first byte is `b1`
(used to project out the SEARCHADDRL/M/H broadcasts, whose first bytes are
`0xb5` / `0xb3` / `0xb1`). -/
def search_sends (b1 : Nat) (t : List BusOp) : List Nat :=
  t.filterMap fun op =>
    match op with
    | .send2 _ bb1 b2 => if bb1 = b1 then some b2 else none
    | _ => none

/-- A one-bus configuration whose bus status is `Unknown`, with one channel
and one group. -/
def unknownStatusConfig : DaliConfig :=
  ⟨"ctl", [⟨"Bus-1", .Unknown, 0, [⟨5, "Light 5"⟩], [⟨3, "G3", [5]⟩]⟩]⟩

/-- A one-bus configuration whose bus status is `NoPower`, with one channel
and one group. -/
def noPowerStatusConfig : DaliConfig :=
  ⟨"ctl", [⟨"Bus-1", .NoPower, 0, [⟨5, "Light 5"⟩], [⟨3, "G3", [5]⟩]⟩]⟩

/-- A two-channel bus used to exercise `change_short_address`. -/
def twoChannelBus : BusConfig := ⟨"Bus-1", .Active, 0, [⟨0, "A"⟩, ⟨1, "B"⟩], []⟩

/-- A one-channel bus with no groups, used to exercise `match_group`. -/
def oneChannelBus : BusConfig := ⟨"Bus-1", .Active, 0, [⟨0, "A"⟩], []⟩

/-- A configuration whose single (Active) bus has groups 0 and 2 but not 1. -/
def gapGroupsConfig : DaliConfig :=
  ⟨"ctl", [⟨"Bus-1", .Active, 0, [], [⟨0, "G0", []⟩, ⟨2, "G2", []⟩]⟩]⟩

/-- A configuration whose single bus has `Unknown` status and no groups. -/
def emptyUnknownConfig : DaliConfig := ⟨"ctl", [⟨"Bus-1", .Unknown, 0, [], []⟩]⟩

/-! ### Claim C1 -/

/-- C1 counterexample: the dispatch arm for `RemoveShortAddress` in
`MqttDali::run_session` sets `republish_config = false` (mqtt.rs:650-653), so
after a successful `RemoveShortAddress` — a command that removes a channel
from the persistent model — the dispatcher publishes only the `"OK"` status
and neither republishes the configuration snapshot nor saves the config file,
contradicting the claim. -/
theorem claim_C1_counterexample :
    MqttDali.session_publishes (.removeShortAddress 0 1) true = [.statusOk] ∧
    MqttDali.SessionPub.configPublish ∉
      MqttDali.session_publishes (.removeShortAddress 0 1) true ∧
    MqttDali.SessionPub.configSave ∉
      MqttDali.session_publishes (.removeShortAddress 0 1) true := by
  decide

/-- C1 amended: after a successfully executed command the dispatcher
republishes the configuration snapshot and persists it for every command
except `SetLightBrightness`, `SetGroupBrightness`, `QueryLightStatus` and
`RemoveShortAddress`; in particular `RemoveShortAddress` (although it mutates
the persistent model) does NOT republish, while `UpdateBusStatus` (a
bus-status update) DOES; the snapshot is persisted to the config file exactly
when it is republished, and nothing is republished after a failed command. -/
theorem claim_C1_amended (c : DaliCommand) (succeeded : Bool) :
    (MqttDali.SessionPub.configPublish ∈ MqttDali.session_publishes c succeeded ↔
      (succeeded = true ∧
        match c with
        | .setLightBrightness _ _ _ => False
        | .setGroupBrightness _ _ _ => False
        | .queryLightStatus _ _ => False
        | .removeShortAddress _ _ => False
        | _ => True)) ∧
    (MqttDali.SessionPub.configSave ∈ MqttDali.session_publishes c succeeded ↔
      MqttDali.SessionPub.configPublish ∈ MqttDali.session_publishes c succeeded) := by
  cases c <;> cases succeeded <;>
    simp [MqttDali.session_publishes, MqttDali.republish_config]

/-! ### Claim C6 -/

/-- C6 (code bug): `DaliManager::send_command_to_group` range-checks
`group_address >= 64` — the short-address bound — instead of `>= 16`, the
group-address bound used by its sibling `set_group_fade_time` and stated by
the spec.  Hence for `group_address = 16` the call reaches
`to_light_group_address`, which panics (`"Invalid DALI group#"`) instead of
returning the `GroupAddress` error; only addresses ≥ 64 get the error.  In
both cases no bus I/O happens (the trace stays empty). -/
theorem claim_C6_code_bug :
    DaliManager.send_command_to_group allNoneOracle [] 0 (DALI_ADD_TO_GROUP0 + 0) 16 false
      = ([], .error (.panicked "Invalid DALI group#")) ∧
    DaliManager.send_command_to_group allNoneOracle [] 0 (DALI_ADD_TO_GROUP0 + 0) 64 false
      = ([], .error (.groupAddress 64)) := by
  decide

/-! ### Claim C9 -/

/-- C9: when `AddToGroup` names a group absent from the bus configuration,
`MqttDali::add_to_group` inserts the new empty group before the bus-status
check and before the device transaction; so if the bus is not `Active`, or the
bus is `Active` but `add_to_group_and_verify` fails, the command returns an
error while the newly created empty group remains in the configuration, and in
the not-`Active` case no bus I/O has happened at all. -/
theorem claim_C9 (o : Oracle) (t : List BusOp) (cfg : DaliConfig)
    (bus_number group_address short_address : Nat) (bus : BusConfig)
    (hbus : cfg.buses[bus_number]? = some bus)
    (habsent : DaliManager.hasGroup bus.groups group_address = false) :
    (bus.status ≠ .Active →
      ∃ e, MqttDali.add_to_group o t cfg bus_number group_address short_address =
        (t, { cfg with
                buses := cfg.buses.set bus_number
                  ({ bus with
                       groups := bus.groups ++
                         [⟨group_address, "Group " ++ toString group_address, []⟩] }) },
         .error e)) ∧
    (bus.status = .Active →
      ∀ t' e, DaliManager.add_to_group_and_verify o t bus_number group_address short_address
          = (t', .error e) →
        MqttDali.add_to_group o t cfg bus_number group_address short_address =
          (t', { cfg with
                   buses := cfg.buses.set bus_number
                     ({ bus with
                          groups := bus.groups ++
                            [⟨group_address, "Group " ++ toString group_address, []⟩] }) },
           .error e)) := by
  constructor
  · intro hstatus
    unfold MqttDali.add_to_group
    rw [hbus]
    simp only [habsent, Bool.false_eq_true, if_false]
    cases h : bus.status with
    | Active => exact absurd h hstatus
    | NoPower => exact ⟨.busHasNoPower bus_number, by simp [MqttDali.check_bus_status, h]⟩
    | Overloaded => exact ⟨.busOverloaded bus_number, by simp [MqttDali.check_bus_status, h]⟩
    | Unknown => exact ⟨.invalidBusStatus bus_number, by simp [MqttDali.check_bus_status, h]⟩
  · intro hstatus t' e hdev
    unfold MqttDali.add_to_group
    rw [hbus]
    simp only [habsent, Bool.false_eq_true, if_false, hstatus, MqttDali.check_bus_status, hdev]

/-- C9 witness: on a one-bus configuration with `Unknown` status and no
groups, `AddToGroup{group:4, address:2}` fails with `InvalidBusStatus` while
group 4 (empty) has been inserted into the configuration and no bus operation
was issued. -/
theorem claim_C9_witness :
    ∃ e, MqttDali.add_to_group allNoneOracle [] emptyUnknownConfig 0 4 2 =
      ([], ⟨"ctl", [⟨"Bus-1", .Unknown, 0, [], [⟨4, "Group 4", []⟩]⟩]⟩, .error e) :=
  (claim_C9 allNoneOracle [] emptyUnknownConfig 0 4 2
      ⟨"Bus-1", .Unknown, 0, [], []⟩ (by decide) (by decide)).1 (by decide)

/-! ### Claim C10 -/

/-- `List.find?` over `range' s n` returns the least element satisfying the
predicate when one is in range. -/
theorem find?_range'_eq_some {p : Nat → Bool} :
    ∀ (n s g : Nat), s ≤ g → g < s + n → p g = true →
      (∀ k, s ≤ k → k < g → p k = false) →
      (List.range' s n).find? p = some g := by
  intro n
  induction n with
  | zero => intro s g hsg hlt _ _; omega
  | succ n ih =>
    intro s g hsg hlt hp hmin
    rw [List.range'_succ, List.find?_cons]
    by_cases hgs : g = s
    · subst hgs; simp [hp]
    · have hps : p s = false := hmin s le_rfl (by omega)
      simp only [hps]
      exact ih (s + 1) g (by omega) (by omega) hp (fun k hk1 hk2 => hmin k (by omega) hk2)

/-- `List.find?` over `range' s n` returns nothing when no element in range
satisfies the predicate. -/
theorem find?_range'_eq_none {p : Nat → Bool} :
    ∀ (n s : Nat), (∀ k, s ≤ k → k < s + n → p k = false) →
      (List.range' s n).find? p = none := by
  intro n
  induction n with
  | zero => intro s _; rfl
  | succ n ih =>
    intro s hall
    rw [List.range'_succ, List.find?_cons]
    have hps : p s = false := hall s le_rfl (by omega)
    simp only [hps]
    exact ih (s + 1) (fun k hk1 hk2 => hall k (by omega) (by omega))

/-- C10: `MqttDali::new_group` assigns the smallest group address in `[0,15]`
not already present on the bus, appending a group with description
`"Group {address}"` and no members; when all 16 addresses are taken it fails
with `NoMoreGroups` leaving the configuration unchanged; in both cases no bus
operation is issued (the trace is returned untouched). -/
theorem claim_C10 (o : Oracle) (t : List BusOp) (cfg : DaliConfig)
    (bus_number : Nat) (bus : BusConfig)
    (hbus : cfg.buses[bus_number]? = some bus) :
    (∀ g, g < 16 →
      (∀ grp ∈ bus.groups, grp.group_address ≠ g) →
      (∀ g', g' < g → ∃ grp ∈ bus.groups, grp.group_address = g') →
      MqttDali.new_group o t cfg bus_number =
        (t, { cfg with
                buses := cfg.buses.set bus_number
                  ({ bus with
                       groups := bus.groups ++ [⟨g, "Group " ++ toString g, []⟩] }) },
          .ok .none)) ∧
    ((∀ g, g < 16 → ∃ grp ∈ bus.groups, grp.group_address = g) →
      MqttDali.new_group o t cfg bus_number = (t, cfg, .error (.noMoreGroups bus_number))) := by
  have hpred : ∀ k,
      ((! bus.groups.any (fun group => group.group_address == k)) = true ↔
        ∀ grp ∈ bus.groups, grp.group_address ≠ k) := by
    intro k
    simp [List.any_eq_true]
  constructor
  · intro g hg habsent hmin
    have hfind : (List.range 16).find?
        (fun group_address =>
          ! bus.groups.any (fun group => group.group_address == group_address)) = some g := by
      rw [List.range_eq_range']
      apply find?_range'_eq_some 16 0 g (Nat.zero_le g) (by omega)
      · exact (hpred g).mpr habsent
      · intro k _ hk
        obtain ⟨grp, hgrp, haddr⟩ := hmin k hk
        refine Bool.eq_false_iff.mpr ?_
        intro hcontra
        exact ((hpred k).mp hcontra grp hgrp) haddr
    unfold MqttDali.new_group
    simp only [hbus, hfind]
  · intro hall
    have hfind : (List.range 16).find?
        (fun group_address =>
          ! bus.groups.any (fun group => group.group_address == group_address)) = none := by
      rw [List.range_eq_range']
      apply find?_range'_eq_none
      intro k _ hk
      obtain ⟨grp, hgrp, haddr⟩ := hall k (by omega)
      refine Bool.eq_false_iff.mpr ?_
      intro hcontra
      exact ((hpred k).mp hcontra grp hgrp) haddr
    unfold MqttDali.new_group
    simp only [hbus, hfind]

/-- C10 witness: on a bus carrying groups 0 and 2, `NewGroup` creates group 1
(description `"Group 1"`, no members) with no bus I/O. -/
theorem claim_C10_witness :
    MqttDali.new_group allNoneOracle [] gapGroupsConfig 0 =
      ([], ⟨"ctl", [⟨"Bus-1", .Active, 0, [],
        [⟨0, "G0", []⟩, ⟨2, "G2", []⟩, ⟨1, "Group 1", []⟩]⟩]⟩, .ok .none) := by
  have h := (claim_C10 allNoneOracle [] gapGroupsConfig 0
      ⟨"Bus-1", .Active, 0, [], [⟨0, "G0", []⟩, ⟨2, "G2", []⟩]⟩ rfl).1
      1 (by omega) (by decide)
      (fun g' hg' => by
        have hg0 : g' = 0 := by omega
        subst hg0
        exact ⟨⟨0, "G0", []⟩, by simp, rfl⟩)
  exact h

/-! ### Claim C2 -/

/-- C2 counterexample: on a bus whose status is `Unknown`, `RenameLight`
succeeds and renames the channel — `MqttDali::rename_light` performs no
bus-status check — contradicting the claim that `RenameLight`, `RenameGroup`
and `NewGroup` are rejected with `InvalidBusStatus` on such a bus. -/
theorem claim_C2_counterexample :
    MqttDali.rename_light allNoneOracle [] unknownStatusConfig 0 5 "Renamed" =
      ([], ⟨"ctl", [⟨"Bus-1", .Unknown, 0, [⟨5, "Renamed"⟩], [⟨3, "G3", [5]⟩]⟩]⟩,
        .ok .none) := by
  decide

/-- C2 amended: on every bus whose status is not `Active`, the commands that
only edit the in-memory model — `RenameBus`, `RenameLight`, `RenameGroup`,
`NewGroup` — perform no bus-status check and succeed (with no bus I/O), while
the mutating commands that drive the bus — `RemoveGroup`, `AddToGroup` (after
inserting a missing empty group), `RemoveFromGroup` (when the light is
currently a member), `MatchGroup` and `RemoveShortAddress` — fail before any
bus I/O (the trace is unchanged) with the status-determined error:
`BusHasNoPower` for a `NoPower` bus, `BusOverloaded` for an `Overloaded` bus,
and `InvalidBusStatus` for an `Unknown` bus. -/
theorem claim_C2_amended (o : Oracle) (t : List BusOp) (cfg : DaliConfig)
    (b : Nat) (bus : BusConfig)
    (hbus : cfg.buses[b]? = some bus)
    (hstatus : bus.status ≠ .Active) :
    (∀ name, MqttDali.rename_bus o t cfg b name =
      (t, { cfg with buses := cfg.buses.set b ({ bus with description := name }) },
        .ok .none)) ∧
    (∀ a name chs', renameChannelIn bus.channels a name = some chs' →
      MqttDali.rename_light o t cfg b a name =
        (t, { cfg with buses := cfg.buses.set b ({ bus with channels := chs' }) },
          .ok .none)) ∧
    (∀ g name gs', renameGroupIn bus.groups g name = some gs' →
      MqttDali.rename_group o t cfg b g name =
        (t, { cfg with buses := cfg.buses.set b ({ bus with groups := gs' }) },
          .ok .none)) ∧
    ((MqttDali.new_group o t cfg b).1 = t ∧
      ((MqttDali.new_group o t cfg b).2.2 = .ok .none ∨
        (MqttDali.new_group o t cfg b).2.2 = .error (.noMoreGroups b))) ∧
    (∃ e, MqttDali.check_bus_status b bus.status = .error e ∧
      (bus.status = .NoPower → e = .busHasNoPower b) ∧
      (bus.status = .Overloaded → e = .busOverloaded b) ∧
      (bus.status = .Unknown → e = .invalidBusStatus b) ∧
      (∀ g, MqttDali.remove_group o t cfg b g = (t, cfg, .error e)) ∧
      (∀ g a, ∃ cfg',
        MqttDali.add_to_group o t cfg b g a = (t, cfg', .error e)) ∧
      (∀ g a members, DaliManager.getMembersIn bus.groups g = some members →
        a ∈ members →
        MqttDali.remove_from_group o t cfg b g a = (t, cfg, .error e)) ∧
      (∀ g re, MqttDali.match_group o t cfg b g re =
        (t, cfg, .error e)) ∧
      (∀ a, MqttDali.remove_short_address o t cfg b a =
        (t, cfg, .error e))) := by
  have key : ∀ e, MqttDali.check_bus_status b bus.status = .error e →
      (∀ g, MqttDali.remove_group o t cfg b g = (t, cfg, .error e)) ∧
      (∀ g a, ∃ cfg',
        MqttDali.add_to_group o t cfg b g a = (t, cfg', .error e)) ∧
      (∀ g a members, DaliManager.getMembersIn bus.groups g = some members →
        a ∈ members →
        MqttDali.remove_from_group o t cfg b g a = (t, cfg, .error e)) ∧
      (∀ g re, MqttDali.match_group o t cfg b g re =
        (t, cfg, .error e)) ∧
      (∀ a, MqttDali.remove_short_address o t cfg b a =
        (t, cfg, .error e)) := by
    intro e he
    refine ⟨?_, ?_, ?_, ?_, ?_⟩
    · intro g
      unfold MqttDali.remove_group
      simp [hbus, he]
    · intro g a
      cases hg : DaliManager.hasGroup bus.groups g with
      | true =>
        refine ⟨{ cfg with buses := cfg.buses.set b bus }, ?_⟩
        unfold MqttDali.add_to_group
        simp [hbus, hg, he]
      | false =>
        refine ⟨{ cfg with
          buses := cfg.buses.set b
            ({ bus with groups := bus.groups ++ [⟨g, "Group " ++ toString g, []⟩] }) }, ?_⟩
        unfold MqttDali.add_to_group
        simp [hbus, hg, he]
    · intro g a members hget hmem
      unfold MqttDali.remove_from_group
      simp [hbus, hget, hmem, he]
    · intro g re
      unfold MqttDali.match_group
      simp [hbus, he]
    · intro a
      unfold MqttDali.remove_short_address
      simp [hbus, he]
  refine ⟨?_, ?_, ?_, ?_, ?_⟩
  · intro name
    unfold MqttDali.rename_bus
    simp only [hbus]
  · intro a name chs' hren
    unfold MqttDali.rename_light
    simp only [hbus, hren]
  · intro g name gs' hren
    unfold MqttDali.rename_group
    simp only [hbus, hren]
  · unfold MqttDali.new_group
    cases hf : (List.range 16).find?
        (fun group_address =>
          ! bus.groups.any (fun group => group.group_address == group_address)) with
    | none => simp [hbus, hf]
    | some g => simp [hbus, hf]
  · obtain ⟨e, he, h1, h2, h3⟩ :
        ∃ e, MqttDali.check_bus_status b bus.status = .error e ∧
          (bus.status = .NoPower → e = .busHasNoPower b) ∧
          (bus.status = .Overloaded → e = .busOverloaded b) ∧
          (bus.status = .Unknown → e = .invalidBusStatus b) := by
      cases hs : bus.status with
      | Active => exact absurd hs hstatus
      | NoPower =>
        exact ⟨.busHasNoPower b, rfl, fun _ => rfl,
          fun h => absurd h (by decide), fun h => absurd h (by decide)⟩
      | Overloaded =>
        exact ⟨.busOverloaded b, rfl, fun h => absurd h (by decide),
          fun _ => rfl, fun h => absurd h (by decide)⟩
      | Unknown =>
        exact ⟨.invalidBusStatus b, rfl, fun h => absurd h (by decide),
          fun h => absurd h (by decide), fun _ => rfl⟩
    exact ⟨e, he, h1, h2, h3, key e he⟩

/-- C2 witness: `RemoveGroup{group:3}` fails with `BusHasNoPower` on a
concrete `NoPower`-status bus, and `RemoveShortAddress{address:5}` fails with
`InvalidBusStatus` on a concrete `Unknown`-status bus, each leaving trace and
configuration untouched. -/
theorem claim_C2_witness :
    MqttDali.remove_group allNoneOracle [] noPowerStatusConfig 0 3 =
      ([], noPowerStatusConfig, .error (.busHasNoPower 0)) ∧
    MqttDali.remove_short_address allNoneOracle [] unknownStatusConfig 0 5 =
      ([], unknownStatusConfig, .error (.invalidBusStatus 0)) := by
  constructor
  · obtain ⟨e, he, h1, h2, h3, hrg, hrest⟩ :=
      (claim_C2_amended allNoneOracle [] noPowerStatusConfig 0
        ⟨"Bus-1", .NoPower, 0, [⟨5, "Light 5"⟩], [⟨3, "G3", [5]⟩]⟩ rfl
        (by decide)).2.2.2.2
    rw [h1 rfl] at hrg
    exact hrg 3
  · obtain ⟨e, he, h1, h2, h3, hrg, hadd, hrfg, hmg, hrsa⟩ :=
      (claim_C2_amended allNoneOracle [] unknownStatusConfig 0
        ⟨"Bus-1", .Unknown, 0, [⟨5, "Light 5"⟩], [⟨3, "G3", [5]⟩]⟩ rfl
        (by decide)).2.2.2.2
    rw [h3 rfl] at hrsa
    exact hrsa 5

/-! ### Claim C4 -/

/-- The COMPARE broadcast of the commissioning steps: a single
`send_2_bytes` of the special frame `(0xa9, 0)`. -/
theorem bcac_compare (o : Oracle) (t : List BusOp) (bus : Nat) :
    DaliManager.broadcast_command_allow_collision o t bus DALI_COMPARE 0 false =
      (t ++ [compare_op bus], o (t ++ [compare_op bus])) := rfl

/-- C4 counterexample: `find_next_device` invokes `is_random_address_le` with
`retry = 2`, so a silent bus causes the COMPARE broadcast to be retried twice
— three COMPARE frames — before "random address ≤ search address" is treated
as false; the claim's "retries exactly once" would send only two. -/
theorem claim_C4_counterexample :
    DaliBusIterator.is_random_address_le allNoneOracle 0 2 [] =
      ([compare_op 0, compare_op 0, compare_op 0], false) ∧
    [compare_op 0, compare_op 0, compare_op 0].length ≠ 2 := by
  decide

/-- C4 amended: in each step of the binary search the iterator broadcasts
COMPARE allowing collision with `retry = 2`: a `None` reply is retried up to
two more times (three COMPARE broadcasts in total) before "random address ≤
search address" is treated as false, and any non-`None` reply (collisions
included) stops the retries and is treated as true. -/
theorem claim_C4_amended (o : Oracle) (t : List BusOp) (bus : Nat) :
    (o (t ++ [compare_op bus]) ≠ .none →
      DaliBusIterator.is_random_address_le o bus 2 t = (t ++ [compare_op bus], true)) ∧
    (o (t ++ [compare_op bus]) = .none →
      o (t ++ [compare_op bus, compare_op bus]) ≠ .none →
      DaliBusIterator.is_random_address_le o bus 2 t =
        (t ++ [compare_op bus, compare_op bus], true)) ∧
    (o (t ++ [compare_op bus]) = .none →
      o (t ++ [compare_op bus, compare_op bus]) = .none →
      o (t ++ [compare_op bus, compare_op bus, compare_op bus]) ≠ .none →
      DaliBusIterator.is_random_address_le o bus 2 t =
        (t ++ [compare_op bus, compare_op bus, compare_op bus], true)) ∧
    (o (t ++ [compare_op bus]) = .none →
      o (t ++ [compare_op bus, compare_op bus]) = .none →
      o (t ++ [compare_op bus, compare_op bus, compare_op bus]) = .none →
      DaliBusIterator.is_random_address_le o bus 2 t =
        (t ++ [compare_op bus, compare_op bus, compare_op bus], false)) := by
  have happ2 : t ++ [compare_op bus] ++ [compare_op bus] =
      t ++ [compare_op bus, compare_op bus] := by simp
  have happ3 : t ++ [compare_op bus, compare_op bus] ++ [compare_op bus] =
      t ++ [compare_op bus, compare_op bus, compare_op bus] := by simp
  refine ⟨?_, ?_, ?_, ?_⟩
  · intro h1
    unfold DaliBusIterator.is_random_address_le
    rw [bcac_compare]
    cases hr : o (t ++ [compare_op bus]) <;> simp_all
  · intro h1 h2
    unfold DaliBusIterator.is_random_address_le
    rw [bcac_compare, h1]
    unfold DaliBusIterator.is_random_address_le
    rw [bcac_compare, happ2]
    cases hr : o (t ++ [compare_op bus, compare_op bus]) <;> simp_all
  · intro h1 h2 h3
    unfold DaliBusIterator.is_random_address_le
    rw [bcac_compare, h1]
    unfold DaliBusIterator.is_random_address_le
    rw [bcac_compare, happ2, h2]
    unfold DaliBusIterator.is_random_address_le
    rw [bcac_compare, happ3]
    cases hr : o (t ++ [compare_op bus, compare_op bus, compare_op bus]) <;> simp_all
  · intro h1 h2 h3
    unfold DaliBusIterator.is_random_address_le
    rw [bcac_compare, h1]
    unfold DaliBusIterator.is_random_address_le
    rw [bcac_compare, happ2, h2]
    unfold DaliBusIterator.is_random_address_le
    rw [bcac_compare, happ3, h3]

/-- C4 witness: with a silent bus and a non-empty starting trace, the
three-COMPARE retry sequence ends in `false`. -/
theorem claim_C4_witness :
    DaliBusIterator.is_random_address_le allNoneOracle 7 2 [compare_op 7] =
      ([compare_op 7, compare_op 7, compare_op 7, compare_op 7], false) := by
  have h := (claim_C4_amended allNoneOracle [compare_op 7] 7).2.2.2 rfl rfl rfl
  simpa using h

/-! ### Claim C3 -/

/-- The `high` tail of `send_search_address` returns the iterator unchanged. -/
theorem send_search_address_high_iter (o : Oracle) (t : List BusOp)
    (it : DaliBusIterator) (high : Option Nat) :
    (DaliBusIterator.send_search_address.send_search_address_high o t it high).2.1 = it := by
  unfold DaliBusIterator.send_search_address.send_search_address_high
  cases high with
  | none => rfl
  | some v =>
    rcases h : DaliManager.broadcast_command o t it.bus DALI_SEARCHADDRH v false with ⟨t₁, r⟩
    cases r <;> simp [h]

/-- The `mid` tail of `send_search_address` returns the iterator unchanged. -/
theorem send_search_address_mid_iter (o : Oracle) (t : List BusOp)
    (it : DaliBusIterator) (mid high : Option Nat) :
    (DaliBusIterator.send_search_address.send_search_address_mid o t it mid high).2.1 = it := by
  unfold DaliBusIterator.send_search_address.send_search_address_mid
  cases mid with
  | none => exact send_search_address_high_iter o t it high
  | some v =>
    rcases h : DaliManager.broadcast_command o t it.bus DALI_SEARCHADDRM v false with ⟨t₁, r⟩
    cases r <;> simp [h, send_search_address_high_iter]

/-- `send_search_address` only records the three previous search-address
bytes: the bus and the short-address counter of the iterator are unchanged. -/
theorem send_search_address_iter_fields (o : Oracle) (t : List BusOp)
    (it : DaliBusIterator) (sa : Nat) :
    (DaliBusIterator.send_search_address o t it sa).2.1.short_address = it.short_address ∧
    (DaliBusIterator.send_search_address o t it sa).2.1.bus = it.bus := by
  unfold DaliBusIterator.send_search_address
  cases hlow : DaliBusIterator.diff_value it.previous_low_byte (sa % 256) with
  | none =>
    rw [send_search_address_mid_iter]
    exact ⟨rfl, rfl⟩
  | some v =>
    rcases h : DaliManager.broadcast_command o t
        ({ it with
            previous_low_byte := some (sa % 256)
            previous_mid_byte := some ((sa >>> 8) % 256)
            previous_high_byte := some ((sa >>> 16) % 256) } : DaliBusIterator).bus
        DALI_SEARCHADDRL v false with ⟨t₁, r⟩
    cases r <;> simp [h, send_search_address_mid_iter]

/-- The binary-search loop of `find_next_device`, started with `delta = 2^k`
and enough fuel, runs exactly `k + 1` iterations when it returns `ok`: the
progress callback is invoked with steps `step, step+1, …, step+k` (the
short-address counter never changing). -/
theorem find_loop_progress (o : Oracle) :
    ∀ (k fuel : Nat), k + 2 ≤ fuel →
    ∀ (t : List BusOp) (it : DaliBusIterator) (sa step : Nat) (prog : List (Nat × Nat))
      (t' : List BusOp) (it' : DaliBusIterator) (sa' : Nat) (prog' : List (Nat × Nat)),
      DaliBusIterator.find_loop o fuel t it sa (2 ^ k) step prog =
        (t', it', sa', prog', .ok ()) →
      prog' = prog ++ (List.range' step (k + 1)).map (fun s => (it.short_address, s)) ∧
      it'.short_address = it.short_address := by
  intro k
  induction k with
  | zero =>
    intro fuel hfuel t it sa step prog t' it' sa' prog' h
    obtain ⟨f, rfl⟩ : ∃ f, fuel = (f + 1) + 1 := ⟨fuel - 2, by omega⟩
    rcases hs : DaliBusIterator.send_search_address o t it sa with ⟨t₁, it₁, r₁⟩
    cases r₁ with
    | error e => simp [DaliBusIterator.find_loop, hs] at h
    | ok rv =>
      rcases his : DaliBusIterator.is_random_address_le o it₁.bus 2 t₁ with ⟨t₂, le⟩
      have hit : it₁.short_address = it.short_address := by
        have hf := (send_search_address_iter_fields o t it sa).1
        rw [hs] at hf
        exact hf
      simp only [DaliBusIterator.find_loop, pow_zero, hs, his] at h
      have hprog : prog ++ [(it₁.short_address, step)] = prog' :=
        congrArg (fun x => x.2.2.2.1) h
      have hit' : it₁ = it' := congrArg (fun x => x.2.1) h
      refine ⟨?_, ?_⟩
      · rw [← hprog, hit, List.range'_one]
        simp
      · rw [← hit']
        exact hit
  | succ k ih =>
    intro fuel hfuel t it sa step prog t' it' sa' prog' h
    obtain ⟨f, rfl⟩ : ∃ f, fuel = f + 1 := ⟨fuel - 1, by omega⟩
    have hpos : (0:Nat) < 2 ^ (k + 1) := pow_pos (by norm_num) _
    rcases hs : DaliBusIterator.send_search_address o t it sa with ⟨t₁, it₁, r₁⟩
    cases r₁ with
    | error e => simp [DaliBusIterator.find_loop, hpos, hs] at h
    | ok rv =>
      rcases his : DaliBusIterator.is_random_address_le o it₁.bus 2 t₁ with ⟨t₂, le⟩
      have hit : it₁.short_address = it.short_address := by
        have hf := (send_search_address_iter_fields o t it sa).1
        rw [hs] at hf
        exact hf
      have hsh : ((2:Nat) ^ (k + 1)) >>> 1 = 2 ^ k := by
        rw [Nat.shiftRight_succ, Nat.shiftRight_zero, Nat.pow_succ,
          Nat.mul_div_cancel _ (by norm_num)]
      simp only [DaliBusIterator.find_loop, hpos, if_pos, gt_iff_lt, hs, his, hsh] at h
      obtain ⟨hprog, hshort⟩ := ih f (by omega) _ _ _ _ _ _ _ _ _ h
      refine ⟨?_, ?_⟩
      · rw [hprog, hit]
        simp [List.range'_succ]
      · rw [hshort, hit]

/-- `find_finish` passes the progress list and the confirmation count through
unchanged, whatever the termination broadcast does. -/
theorem find_finish_fields (o : Oracle) (t : List BusOp) (it : DaliBusIterator)
    (sa : Nat) (prog : List (Nat × Nat)) (confirms : Nat) :
    (DaliBusIterator.find_finish o t it sa prog confirms).progressCalls = prog ∧
    (DaliBusIterator.find_finish o t it sa prog confirms).confirmCompares = confirms := by
  unfold DaliBusIterator.find_finish
  split
  · rcases h : DaliManager.broadcast_command o t it.bus DALI_TERMINATE 0 false with ⟨t₁, r⟩
    cases r <;> simp
  · simp

/-- C3 counterexample: with a silent bus, one `find_next_device` run from a
fresh iterator reports progress steps `0..22` — 23 binary-search COMPARE
cycles, not 24, and step 23 is never reported — refuting "exactly 24 COMPARE
cycles with step values covering [0,23]" (the loop starts at
`delta = 0x400000 = 2^22` and halves to zero after 23 iterations). -/
theorem claim_C3_counterexample :
    ((DaliBusIterator.find_next_device allNoneOracle [] (DaliBusIterator.fresh 0)
        ).progressCalls.map Prod.snd = List.range 23) ∧
    (DaliBusIterator.find_next_device allNoneOracle [] (DaliBusIterator.fresh 0)
        ).progressCalls.length = 23 ∧
    (23 : Nat) ∉ (DaliBusIterator.find_next_device allNoneOracle [] (DaliBusIterator.fresh 0)
        ).progressCalls.map Prod.snd := by
  decide

/-- The confirmation step passes the progress list through unchanged and, when
it completes without a transport error, performed one or two COMPARE cycles. -/
theorem find_confirm_fields (o : Oracle) (t : List BusOp) (it : DaliBusIterator)
    (sa : Nat) (prog : List (Nat × Nat)) (r : Option Nat)
    (hok : (DaliBusIterator.find_confirm o t it sa prog).outcome = .ok r) :
    (DaliBusIterator.find_confirm o t it sa prog).progressCalls = prog ∧
    ((DaliBusIterator.find_confirm o t it sa prog).confirmCompares = 1 ∨
      (DaliBusIterator.find_confirm o t it sa prog).confirmCompares = 2) := by
  unfold DaliBusIterator.find_confirm at hok ⊢
  rcases hs1 : DaliBusIterator.send_search_address o t it sa with ⟨t₂, it₂, r₂⟩
  cases r₂ with
  | error e => simp [hs1] at hok
  | ok v =>
    rcases his1 : DaliBusIterator.is_random_address_le o it₂.bus 2 t₂ with ⟨t₃, le⟩
    cases le with
    | true =>
      simp only [hs1, his1]
      exact ⟨(find_finish_fields o t₃ it₂ sa prog 1).1,
        Or.inl (find_finish_fields o t₃ it₂ sa prog 1).2⟩
    | false =>
      rcases hs2 : DaliBusIterator.send_search_address o t₃ it₂ (sa + 1) with ⟨t₄, it₄, r₄⟩
      cases r₄ with
      | error e => simp [hs1, his1, hs2] at hok
      | ok w =>
        rcases his2 : DaliBusIterator.is_random_address_le o it₄.bus 2 t₄ with ⟨t₅, le₂⟩
        simp only [hs1, his1, hs2, his2]
        exact ⟨(find_finish_fields o t₅ it₄ (sa + 1) prog 2).1,
          Or.inr (find_finish_fields o t₅ it₄ (sa + 1) prog 2).2⟩

/-- C3 amended: for each `find_next_device` call that completes without a
transport error (and without the terminate flag), the binary search performs
exactly 23 COMPARE cycles — one per loop step, with the progress callback
invoked with step values covering `[0,22]` — plus one confirmation COMPARE
cycle, plus a second confirmation cycle when the first confirmation reply is
negative, before yielding the next short address or end-of-sequence. -/
theorem claim_C3_amended (o : Oracle) (t : List BusOp) (it : DaliBusIterator)
    (hterm : it.terminate = false) (r : Option Nat)
    (hok : (DaliBusIterator.find_next_device o t it).outcome = .ok r) :
    (DaliBusIterator.find_next_device o t it).progressCalls =
      (List.range 23).map (fun s => (it.short_address, s)) ∧
    ((DaliBusIterator.find_next_device o t it).confirmCompares = 1 ∨
      (DaliBusIterator.find_next_device o t it).confirmCompares = 2) := by
  have h22 : (0x400000 : Nat) = 2 ^ 22 := by norm_num
  unfold DaliBusIterator.find_next_device at hok ⊢
  rw [hterm] at hok ⊢
  simp only [Bool.false_eq_true, if_false] at hok ⊢
  rcases hl : DaliBusIterator.find_loop o 32 t it 0x800000 0x400000 0 [] with
    ⟨t₁, it₁, sa₁, prog₁, rl⟩
  rw [hl] at hok
  cases rl with
  | error e => simp at hok
  | ok u =>
    have hprog : prog₁ = (List.range 23).map (fun s => (it.short_address, s)) := by
      rw [h22] at hl
      have hlp := find_loop_progress o 22 32 (by omega) t it 0x800000 0 [] t₁ it₁ sa₁ prog₁ hl
      rw [hlp.1, List.range_eq_range']
      simp
    have hok' : (DaliBusIterator.find_confirm o t₁ it₁ sa₁ prog₁).outcome = .ok r := by
      simpa using hok
    have hcf := find_confirm_fields o t₁ it₁ sa₁ prog₁ r hok'
    refine ⟨?_, ?_⟩
    · simpa [hprog] using hcf.1
    · simpa using hcf.2

/-- C3 witness: the silent-bus run completes (`ok` end-of-sequence), its
progress list is `[(0,0), …, (0,22)]`, and it used two confirmation COMPARE
cycles. -/
theorem claim_C3_witness :
    (DaliBusIterator.find_next_device allNoneOracle [] (DaliBusIterator.fresh 0)
        ).progressCalls = (List.range 23).map (fun s => (0, s)) ∧
    ((DaliBusIterator.find_next_device allNoneOracle [] (DaliBusIterator.fresh 0)
        ).confirmCompares = 1 ∨
      (DaliBusIterator.find_next_device allNoneOracle [] (DaliBusIterator.fresh 0)
        ).confirmCompares = 2) :=
  claim_C3_amended allNoneOracle [] (DaliBusIterator.fresh 0) rfl none (by decide)

/-! ### Claim C7 -/

/-- When `remove_channel`'s scan finds a channel, that channel carries the
searched short address and the original list is a permutation of the found
channel consed onto the remainder. -/
theorem removeChannelAux_found :
    ∀ (l : List Channel) (a : Nat) (c : Channel) (rest : List Channel),
      removeChannelAux l a = (some c, rest) →
      c.short_address = a ∧ l.Perm (c :: rest) := by
  intro l
  induction l with
  | nil => intro a c rest h; simp [removeChannelAux] at h
  | cons x xs ih =>
    intro a c rest h
    by_cases hx : x.short_address = a
    · rw [removeChannelAux, if_pos hx] at h
      obtain ⟨hc, hrest⟩ : x = c ∧ xs = rest := by
        constructor
        · exact Option.some.inj (congrArg (fun p => p.1) h)
        · exact congrArg (fun p => p.2) h
      subst hc; subst hrest
      exact ⟨hx, List.Perm.refl _⟩
    · rcases hr : removeChannelAux xs a with ⟨r, rest'⟩
      rw [removeChannelAux, if_neg hx, hr] at h
      obtain ⟨hc, hrest⟩ : r = some c ∧ x :: rest' = rest := by
        constructor
        · exact congrArg (fun p => p.1) h
        · exact congrArg (fun p => p.2) h
      subst hc
      obtain ⟨haddr, hperm⟩ := ih a c rest' hr
      refine ⟨haddr, ?_⟩
      rw [← hrest]
      exact (hperm.cons x).trans (List.Perm.swap c x rest')

/-- Removing the short address `b` from a list whose own channels all avoid
`b`, after a channel with address `b` was appended, removes exactly that
appended channel. -/
theorem removeChannelAux_append_last :
    ∀ (l : List Channel) (x : Channel) (b : Nat),
      (∀ c ∈ l, c.short_address ≠ b) → x.short_address = b →
      removeChannelAux (l ++ [x]) b = (some x, l) := by
  intro l
  induction l with
  | nil => intro x b _ hx; simp [removeChannelAux, hx]
  | cons y ys ih =>
    intro x b hall hx
    have hy : y.short_address ≠ b := hall y (by simp)
    have hih := ih x b (fun c hc => hall c (List.mem_cons_of_mem _ hc)) hx
    rw [List.cons_append, removeChannelAux, if_neg hy, hih]

/-- The configuration outcome of a successful `change_short_address` with
valid addresses: the first channel at the existing address is removed and a
channel with the preserved description is appended at the new address. -/
theorem change_short_address_ok_config (o : Oracle) (t : List BusOp) (cfg : BusConfig)
    (a b : Nat) (ha : a < 64) (hb : b < 64)
    (ch : Channel) (rest : List Channel)
    (hfound : removeChannelAux cfg.channels a = (some ch, rest))
    (t' : List BusOp) (cfg' : BusConfig) (r : DaliBusResult)
    (h : DaliManager.change_short_address o t cfg a b = (t', cfg', .ok r)) :
    cfg' = { cfg with channels := rest ++ [⟨b, ch.description⟩] } := by
  unfold DaliManager.change_short_address at h
  rw [if_neg (by omega : ¬ a ≥ 64)] at h
  rw [if_neg (by omega : ¬ (b ≥ 64 ∧ b ≠ 0xff))] at h
  rcases hd : DaliManager.set_dtr o t cfg.bus b with ⟨td, rd⟩
  cases rd with
  | error e => simp [hd] at h
  | ok vd =>
    simp only [hd] at h
    rcases hs : DaliManager.send_command_to_address o td cfg.bus
        DALI_SET_SHORT_ADDRESS a true with ⟨ts, rs⟩
    cases rs with
    | error e => simp [hs] at h
    | ok vs =>
      simp only [hs, BusConfig.remove_channel, hfound,
        if_pos (by omega : b ≠ 0xff)] at h
      exact (congrArg (fun x => x.2.1) h).symm

/-- C7 counterexample: with both calls succeeding (silent bus), moving channel
0 to the free address 2 and back returns a configuration whose channel list is
`[⟨1,"B"⟩, ⟨0,"A"⟩]` — the moved channel was re-inserted at the end of the
ordered list, so the configuration does not return to its original state
`[⟨0,"A"⟩, ⟨1,"B"⟩]`. -/
theorem claim_C7_counterexample :
    (DaliManager.change_short_address allNoneOracle [] twoChannelBus 0 2).2.2 = .ok .none ∧
    (let step1 := DaliManager.change_short_address allNoneOracle [] twoChannelBus 0 2
     let step2 := DaliManager.change_short_address allNoneOracle step1.1 step1.2.1 2 0
     step2.2.2 = .ok .none ∧
     step2.2.1 ≠ twoChannelBus ∧
     step2.2.1.channels = [⟨1, "B"⟩, ⟨0, "A"⟩]) := by
  decide

/-- C7 amended: `change_short_address(a → b)` followed by
`change_short_address(b → a)` (both calls succeeding, `a, b < 64`), provided a
channel with address `a` exists and no channel with address `b` exists,
returns a configuration whose channel list is a permutation of the original:
the moved channel — description preserved — is re-inserted at the end of the
list instead of its original position, and every other part of the bus
configuration (description, status, bus number, groups) is unchanged. -/
theorem claim_C7_amended (o₁ o₂ : Oracle) (t : List BusOp) (cfg : BusConfig)
    (a b : Nat) (ha : a < 64) (hb : b < 64)
    (ch : Channel) (rest : List Channel)
    (hfound : removeChannelAux cfg.channels a = (some ch, rest))
    (hbabsent : ∀ c ∈ cfg.channels, c.short_address ≠ b)
    (t₁ t₂ : List BusOp) (cfg₁ cfg₂ : BusConfig) (r₁ r₂ : DaliBusResult)
    (h₁ : DaliManager.change_short_address o₁ t cfg a b = (t₁, cfg₁, .ok r₁))
    (h₂ : DaliManager.change_short_address o₂ t₁ cfg₁ b a = (t₂, cfg₂, .ok r₂)) :
    cfg₂.channels = rest ++ [ch] ∧
    cfg₂.channels.Perm cfg.channels ∧
    cfg₂.description = cfg.description ∧ cfg₂.status = cfg.status ∧
    cfg₂.bus = cfg.bus ∧ cfg₂.groups = cfg.groups := by
  obtain ⟨haddr, hperm⟩ := removeChannelAux_found cfg.channels a ch rest hfound
  have hcfg₁ : cfg₁ = { cfg with channels := rest ++ [⟨b, ch.description⟩] } :=
    change_short_address_ok_config o₁ t cfg a b ha hb ch rest hfound t₁ cfg₁ r₁ h₁
  have hrest_absent : ∀ c ∈ rest, c.short_address ≠ b := by
    intro c hc
    exact hbabsent c (hperm.mem_iff.mpr (List.mem_cons_of_mem _ hc))
  have hfound₂ : removeChannelAux cfg₁.channels b = (some ⟨b, ch.description⟩, rest) := by
    rw [hcfg₁]
    exact removeChannelAux_append_last rest ⟨b, ch.description⟩ b hrest_absent rfl
  have hcfg₂ : cfg₂ = { cfg₁ with channels := rest ++ [⟨a, ch.description⟩] } :=
    change_short_address_ok_config o₂ t₁ cfg₁ b a hb ha ⟨b, ch.description⟩ rest
      hfound₂ t₂ cfg₂ r₂ h₂
  have hch : (⟨a, ch.description⟩ : Channel) = ch := by
    rw [← haddr]
  rw [hcfg₂, hcfg₁]
  refine ⟨by simp [hch], ?_, rfl, rfl, rfl, rfl⟩
  simp only [hch]
  exact (List.perm_append_singleton ch rest).trans hperm.symm

/-- C7 witness: the concrete round trip 0 → 2 → 0 on `twoChannelBus` with a
silent bus: the final channel list is the removal remainder with the moved
channel appended, and it is a permutation of the original list. -/
theorem claim_C7_witness :
    (⟨"Bus-1", .Active, 0, [⟨1, "B"⟩, ⟨0, "A"⟩], []⟩ : BusConfig).channels =
      [⟨1, "B"⟩] ++ [⟨0, "A"⟩] ∧
    (⟨"Bus-1", .Active, 0, [⟨1, "B"⟩, ⟨0, "A"⟩], []⟩ : BusConfig).channels.Perm
      twoChannelBus.channels := by
  have h := claim_C7_amended allNoneOracle allNoneOracle [] twoChannelBus 0 2
    (by omega) (by omega) ⟨0, "A"⟩ [⟨1, "B"⟩] rfl (by decide)
    [.send2 0 0xa3 2, .send2rep 0 1 0x80]
    [.send2 0 0xa3 2, .send2rep 0 1 0x80, .send2 0 0xa3 0, .send2rep 0 5 0x80]
    ⟨"Bus-1", .Active, 0, [⟨1, "B"⟩, ⟨2, "A"⟩], []⟩
    ⟨"Bus-1", .Active, 0, [⟨1, "B"⟩, ⟨0, "A"⟩], []⟩
    .none .none (by decide) (by decide)
  exact ⟨h.1, h.2.1⟩

/-! ### Claim C5 -/

/-- The frames one conditional slot broadcast of `send_search_address`
contributes to the trace. -/
def optSend (bus b1 : Nat) : Option Nat → List BusOp
  | some v => [.send2 bus b1 v]
  | none => []

theorem search_sends_append (b1 : Nat) (t u : List BusOp) :
    search_sends b1 (t ++ u) = search_sends b1 t ++ search_sends b1 u := by
  unfold search_sends
  exact List.filterMap_append t u _

theorem search_sends_optSend_self (bus b1 : Nat) (d : Option Nat) :
    search_sends b1 (optSend bus b1 d) = d.toList := by
  cases d <;> simp [search_sends, optSend]

theorem search_sends_optSend_ne (bus b1 b1' : Nat) (h : b1' ≠ b1) (d : Option Nat) :
    search_sends b1 (optSend bus b1' d) = [] := by
  cases d <;> simp [search_sends, optSend, h]

/-- Under an oracle that never reports a collision, `broadcast_command` is a
single frame followed by the oracle's reply. -/
theorem broadcast_command_no_collision (o : Oracle)
    (hnc : ∀ tr, DaliManager.is_collision (o tr) = false)
    (t : List BusOp) (bus cmd param : Nat) :
    DaliManager.broadcast_command o t bus cmd param false =
      (t ++ [.send2 bus (if cmd &&& 0x100 ≠ 0 then cmd &&& 0xff else 0xff)
          (if cmd &&& 0x100 ≠ 0 then param else cmd % 256)],
        .ok (o (t ++ [.send2 bus (if cmd &&& 0x100 ≠ 0 then cmd &&& 0xff else 0xff)
          (if cmd &&& 0x100 ≠ 0 then param else cmd % 256)]))) := by
  unfold DaliManager.broadcast_command
  rw [show (301 : Nat) = 300 + 1 from rfl]
  unfold DaliManager.broadcast_command_loop
  simp [send_2_bytes, hnc]

theorem ssa_high_no_collision (o : Oracle)
    (hnc : ∀ tr, DaliManager.is_collision (o tr) = false)
    (t : List BusOp) (it : DaliBusIterator) (high : Option Nat) :
    DaliBusIterator.send_search_address.send_search_address_high o t it high =
      (t ++ optSend it.bus 0xb1 high, it, .ok .none) := by
  cases high with
  | none => simp [DaliBusIterator.send_search_address.send_search_address_high, optSend]
  | some v =>
    simp [DaliBusIterator.send_search_address.send_search_address_high,
      broadcast_command_no_collision o hnc, DALI_SEARCHADDRH, optSend]
    decide

theorem ssa_mid_no_collision (o : Oracle)
    (hnc : ∀ tr, DaliManager.is_collision (o tr) = false)
    (t : List BusOp) (it : DaliBusIterator) (mid high : Option Nat) :
    DaliBusIterator.send_search_address.send_search_address_mid o t it mid high =
      (t ++ optSend it.bus 0xb3 mid ++ optSend it.bus 0xb1 high, it, .ok .none) := by
  cases mid with
  | none => simp [DaliBusIterator.send_search_address.send_search_address_mid, optSend,
      ssa_high_no_collision o hnc]
  | some v =>
    simp [DaliBusIterator.send_search_address.send_search_address_mid,
      broadcast_command_no_collision o hnc, DALI_SEARCHADDRM, optSend,
      ssa_high_no_collision o hnc, List.append_assoc]
    decide

/-- Under a collision-free oracle, one `send_search_address` call appends
exactly the changed-slot frames (low, mid, high order) and records the three
new bytes. -/
theorem ssa_no_collision (o : Oracle)
    (hnc : ∀ tr, DaliManager.is_collision (o tr) = false)
    (t : List BusOp) (it : DaliBusIterator) (sa : Nat) :
    DaliBusIterator.send_search_address o t it sa =
      (t ++ optSend it.bus 0xb5 (DaliBusIterator.diff_value it.previous_low_byte (sa % 256))
         ++ optSend it.bus 0xb3 (DaliBusIterator.diff_value it.previous_mid_byte ((sa >>> 8) % 256))
         ++ optSend it.bus 0xb1 (DaliBusIterator.diff_value it.previous_high_byte ((sa >>> 16) % 256)),
       { it with
           previous_low_byte := some (sa % 256)
           previous_mid_byte := some ((sa >>> 8) % 256)
           previous_high_byte := some ((sa >>> 16) % 256) },
       .ok .none) := by
  unfold DaliBusIterator.send_search_address
  cases hlow : DaliBusIterator.diff_value it.previous_low_byte (sa % 256) with
  | none => simp [ssa_mid_no_collision o hnc, optSend, List.append_assoc]
  | some v =>
    simp [broadcast_command_no_collision o hnc, DALI_SEARCHADDRL, optSend,
      ssa_mid_no_collision o hnc, List.append_assoc]
    decide

/-- The cache soundness of one slot: when `previous` is `none` nothing has
been sent for the slot; when it is `some v`, `v` is the byte of the slot's
most recent frame. -/
def slot_ok : Option Nat → List Nat → Prop
  | none, sent => sent = []
  | some v, sent => sent.getLast? = some v

/-- Adjacent frames of one slot always carry different bytes. -/
def chain_ne (l : List Nat) : Prop := l.Chain' (fun x y => x ≠ y)

/-- One slot's update: appending the diff frames preserves cache soundness and
the no-adjacent-repeat property. -/
theorem slot_step (prev : Option Nat) (sent : List Nat) (n : Nat)
    (hok : slot_ok prev sent) (hchain : chain_ne sent) :
    slot_ok (some n) (sent ++ (DaliBusIterator.diff_value prev n).toList) ∧
    chain_ne (sent ++ (DaliBusIterator.diff_value prev n).toList) := by
  cases prev with
  | none =>
    have hsent : sent = [] := hok
    subst hsent
    exact ⟨rfl, List.chain'_singleton n⟩
  | some p =>
    have hlast : sent.getLast? = some p := hok
    by_cases hpn : p ≠ n
    · have hdiff : DaliBusIterator.diff_value (some p) n = some n := by
        simp [DaliBusIterator.diff_value, hpn]
      rw [hdiff]
      constructor
      · exact List.getLast?_concat sent
      · rw [chain_ne, List.chain'_append]
        refine ⟨hchain, List.chain'_singleton n, ?_⟩
        intro x hx y hy
        rw [hlast] at hx
        simp only [Option.mem_def, Option.some.injEq] at hx
        simp only [Option.toList, List.head?_cons, Option.mem_def, Option.some.injEq] at hy
        subst hx
        subst hy
        exact hpn
    · push_neg at hpn
      have hdiff : DaliBusIterator.diff_value (some p) n = none := by
        simp [DaliBusIterator.diff_value, hpn]
      rw [hdiff]
      subst hpn
      exact ⟨by simpa using hlast, by simpa using hchain⟩

/-- The joint invariant of the commissioning iterator: each cached byte is the
most recent frame of its slot, and no slot ever saw two equal adjacent
frames. -/
def search_inv (it : DaliBusIterator) (t : List BusOp) : Prop :=
  slot_ok it.previous_low_byte (search_sends 0xb5 t) ∧
  slot_ok it.previous_mid_byte (search_sends 0xb3 t) ∧
  slot_ok it.previous_high_byte (search_sends 0xb1 t) ∧
  chain_ne (search_sends 0xb5 t) ∧
  chain_ne (search_sends 0xb3 t) ∧
  chain_ne (search_sends 0xb1 t)

/-- One `send_search_address` call preserves `search_inv` (and succeeds). -/
theorem search_inv_step (o : Oracle)
    (hnc : ∀ tr, DaliManager.is_collision (o tr) = false)
    (t : List BusOp) (it : DaliBusIterator) (sa : Nat)
    (hinv : search_inv it t) :
    (DaliBusIterator.send_search_address o t it sa).2.2 = .ok .none ∧
    search_inv (DaliBusIterator.send_search_address o t it sa).2.1
      (DaliBusIterator.send_search_address o t it sa).1 := by
  obtain ⟨h1, h2, h3, c1, c2, c3⟩ := hinv
  rw [ssa_no_collision o hnc]
  have e5 : search_sends 0xb5
      (t ++ optSend it.bus 0xb5 (DaliBusIterator.diff_value it.previous_low_byte (sa % 256))
         ++ optSend it.bus 0xb3 (DaliBusIterator.diff_value it.previous_mid_byte ((sa >>> 8) % 256))
         ++ optSend it.bus 0xb1 (DaliBusIterator.diff_value it.previous_high_byte ((sa >>> 16) % 256)))
      = search_sends 0xb5 t ++
        (DaliBusIterator.diff_value it.previous_low_byte (sa % 256)).toList := by
    rw [search_sends_append, search_sends_append, search_sends_append,
      search_sends_optSend_self, search_sends_optSend_ne _ _ _ (by norm_num),
      search_sends_optSend_ne _ _ _ (by norm_num)]
    simp
  have e3 : search_sends 0xb3
      (t ++ optSend it.bus 0xb5 (DaliBusIterator.diff_value it.previous_low_byte (sa % 256))
         ++ optSend it.bus 0xb3 (DaliBusIterator.diff_value it.previous_mid_byte ((sa >>> 8) % 256))
         ++ optSend it.bus 0xb1 (DaliBusIterator.diff_value it.previous_high_byte ((sa >>> 16) % 256)))
      = search_sends 0xb3 t ++
        (DaliBusIterator.diff_value it.previous_mid_byte ((sa >>> 8) % 256)).toList := by
    rw [search_sends_append, search_sends_append, search_sends_append,
      search_sends_optSend_self, search_sends_optSend_ne _ _ _ (by norm_num),
      search_sends_optSend_ne _ _ _ (by norm_num)]
    simp
  have e1 : search_sends 0xb1
      (t ++ optSend it.bus 0xb5 (DaliBusIterator.diff_value it.previous_low_byte (sa % 256))
         ++ optSend it.bus 0xb3 (DaliBusIterator.diff_value it.previous_mid_byte ((sa >>> 8) % 256))
         ++ optSend it.bus 0xb1 (DaliBusIterator.diff_value it.previous_high_byte ((sa >>> 16) % 256)))
      = search_sends 0xb1 t ++
        (DaliBusIterator.diff_value it.previous_high_byte ((sa >>> 16) % 256)).toList := by
    rw [search_sends_append, search_sends_append, search_sends_append,
      search_sends_optSend_self, search_sends_optSend_ne _ _ _ (by norm_num),
      search_sends_optSend_ne _ _ _ (by norm_num)]
    simp
  refine ⟨rfl, ?_, ?_, ?_, ?_, ?_, ?_⟩
  · rw [e5]; exact (slot_step _ _ _ h1 c1).1
  · rw [e3]; exact (slot_step _ _ _ h2 c2).1
  · rw [e1]; exact (slot_step _ _ _ h3 c3).1
  · rw [e5]; exact (slot_step _ _ _ h1 c1).2
  · rw [e3]; exact (slot_step _ _ _ h2 c2).2
  · rw [e1]; exact (slot_step _ _ _ h3 c3).2

/-- The invariant holds along any sequence of `send_search_address` calls. -/
theorem search_inv_seq (o : Oracle)
    (hnc : ∀ tr, DaliManager.is_collision (o tr) = false) :
    ∀ (sas : List Nat) (t : List BusOp) (it : DaliBusIterator),
      search_inv it t →
      search_inv (send_search_sequence o sas t it).2.1 (send_search_sequence o sas t it).1 := by
  intro sas
  induction sas with
  | nil => intro t it hinv; exact hinv
  | cons sa rest ih =>
    intro t it hinv
    have hstep := search_inv_step o hnc t it sa hinv
    rcases hs : DaliBusIterator.send_search_address o t it sa with ⟨t₁, it₁, r₁⟩
    rw [hs] at hstep
    cases r₁ with
    | error e => simp at hstep
    | ok v =>
      have := ih t₁ it₁ hstep.2
      simpa [send_search_sequence, hs] using this

/-- C5: across successive `send_search_address` calls of a single
commissioning iterator (collision-free bus), a SEARCHADDRL (`0xb5`),
SEARCHADDRM (`0xb3`) or SEARCHADDRH (`0xb1`) byte equal to the previously
sent value for that slot is never re-sent: in the whole trace, consecutive
frames of each slot always carry different bytes, i.e. only slots whose byte
changed since the last send are broadcast. -/
theorem claim_C5 (o : Oracle)
    (hnc : ∀ tr, DaliManager.is_collision (o tr) = false)
    (bus : Nat) (sas : List Nat) :
    ((search_sends 0xb5 (send_search_sequence o sas [] (DaliBusIterator.fresh bus)).1).Chain'
      (fun x y => x ≠ y)) ∧
    ((search_sends 0xb3 (send_search_sequence o sas [] (DaliBusIterator.fresh bus)).1).Chain'
      (fun x y => x ≠ y)) ∧
    ((search_sends 0xb1 (send_search_sequence o sas [] (DaliBusIterator.fresh bus)).1).Chain'
      (fun x y => x ≠ y)) := by
  have hinit : search_inv (DaliBusIterator.fresh bus) [] :=
    ⟨rfl, rfl, rfl, List.chain'_nil, List.chain'_nil, List.chain'_nil⟩
  have h := search_inv_seq o hnc sas [] (DaliBusIterator.fresh bus) hinit
  exact ⟨h.2.2.2.1, h.2.2.2.2.1, h.2.2.2.2.2⟩

/-- C5 witness: a silent bus never collides, and two successive sends of
addresses sharing the high byte produce per-slot byte sequences without
adjacent repeats (the high slot is sent once, not twice). -/
theorem claim_C5_witness :
    ((search_sends 0xb5 (send_search_sequence allNoneOracle [0x800000, 0x804020] []
        (DaliBusIterator.fresh 0)).1).Chain' (fun x y => x ≠ y)) ∧
    ((search_sends 0xb3 (send_search_sequence allNoneOracle [0x800000, 0x804020] []
        (DaliBusIterator.fresh 0)).1).Chain' (fun x y => x ≠ y)) ∧
    ((search_sends 0xb1 (send_search_sequence allNoneOracle [0x800000, 0x804020] []
        (DaliBusIterator.fresh 0)).1).Chain' (fun x y => x ≠ y)) :=
  claim_C5 allNoneOracle (fun _ => rfl) 0 [0x800000, 0x804020]

/-! ### Claim C8 -/

theorem hasGroup_setMembersIn :
    ∀ (gs : List Group) (g : Nat) (m : List Nat) (g' : Nat),
      DaliManager.hasGroup (DaliManager.setMembersIn gs g m) g' =
        DaliManager.hasGroup gs g' := by
  intro gs
  induction gs with
  | nil => intro g m g'; rfl
  | cons grp rest ih =>
    intro g m g'
    by_cases h : grp.group_address = g
    · simp [DaliManager.setMembersIn, DaliManager.hasGroup, h]
    · have hrec := ih g m g'
      rw [DaliManager.hasGroup, DaliManager.hasGroup] at hrec
      simp [DaliManager.setMembersIn, DaliManager.hasGroup, h, hrec]

theorem getMembersIn_setMembersIn :
    ∀ (gs : List Group) (g : Nat) (m m₀ : List Nat),
      DaliManager.getMembersIn gs g = some m₀ →
      DaliManager.getMembersIn (DaliManager.setMembersIn gs g m) g = some m := by
  intro gs
  induction gs with
  | nil => intro g m m₀ h; simp [DaliManager.getMembersIn] at h
  | cons grp rest ih =>
    intro g m m₀ h
    by_cases hg : grp.group_address = g
    · simp [DaliManager.setMembersIn, DaliManager.getMembersIn, hg]
    · rw [DaliManager.getMembersIn, if_neg hg] at h
      rw [DaliManager.setMembersIn, if_neg hg, DaliManager.getMembersIn, if_neg hg]
      exact ih g m m₀ h

theorem setMembersIn_setMembersIn :
    ∀ (gs : List Group) (g : Nat) (m m' : List Nat),
      DaliManager.setMembersIn (DaliManager.setMembersIn gs g m) g m' =
        DaliManager.setMembersIn gs g m' := by
  intro gs
  induction gs with
  | nil => intro g m m'; rfl
  | cons grp rest ih =>
    intro g m m'
    by_cases hg : grp.group_address = g
    · simp [DaliManager.setMembersIn, hg]
    · simp [DaliManager.setMembersIn, hg, ih]

theorem getMembersIn_of_hasGroup :
    ∀ (gs : List Group) (g : Nat), DaliManager.hasGroup gs g = true →
      ∃ m, DaliManager.getMembersIn gs g = some m := by
  intro gs
  induction gs with
  | nil => intro g h; simp [DaliManager.hasGroup] at h
  | cons grp rest ih =>
    intro g h
    by_cases hg : grp.group_address = g
    · exact ⟨grp.members, by rw [DaliManager.getMembersIn, if_pos hg]⟩
    · rw [DaliManager.hasGroup] at h
      simp only [List.any_cons, Bool.or_eq_true, beq_iff_eq] at h
      rcases h with h | h
      · exact absurd h hg
      · rw [DaliManager.getMembersIn, if_neg hg]
        exact ih g h

theorem getMembersIn_found :
    ∀ (gs : List Group) (g : Nat) (m : List Nat),
      DaliManager.getMembersIn gs g = some m →
      ∃ grp ∈ gs, grp.group_address = g ∧ grp.members = m := by
  intro gs
  induction gs with
  | nil => intro g m h; simp [DaliManager.getMembersIn] at h
  | cons grp rest ih =>
    intro g m h
    by_cases hg : grp.group_address = g
    · rw [DaliManager.getMembersIn, if_pos hg] at h
      exact ⟨grp, List.mem_cons_self grp rest, hg, Option.some.inj h⟩
    · rw [DaliManager.getMembersIn, if_neg hg] at h
      obtain ⟨grp', hmem, hprop⟩ := ih g m h
      exact ⟨grp', List.mem_cons_of_mem _ hmem, hprop⟩

theorem getMembersIn_append_new :
    ∀ (gs : List Group) (g : Nat) (d : String) (m : List Nat),
      DaliManager.hasGroup gs g = false →
      DaliManager.getMembersIn (gs ++ [⟨g, d, m⟩]) g = some m := by
  intro gs
  induction gs with
  | nil => intro g d m _; simp [DaliManager.getMembersIn]
  | cons grp rest ih =>
    intro g d m h
    rw [DaliManager.hasGroup, List.any_cons, Bool.or_eq_false_iff] at h
    have h1 : grp.group_address ≠ g := by simpa using h.1
    rw [List.cons_append, DaliManager.getMembersIn, if_neg h1]
    exact ih g d m (by rw [DaliManager.hasGroup]; exact h.2)

theorem hasGroup_append_new (gs : List Group) (g : Nat) (d : String) (m : List Nat) :
    DaliManager.hasGroup (gs ++ [⟨g, d, m⟩]) g = true := by
  simp [DaliManager.hasGroup]

/-- After a successful pass over the channels, the member list contains
exactly the addresses of matching channels (among the channels' addresses),
it is duplicate-free, and non-listed addresses are untouched. -/
theorem match_group_channels_ok_invariant (o : Oracle) (bus g : Nat) (re : String → Bool) :
    ∀ (cs : List Channel) (t : List BusOp) (m : List Nat),
      (cs.map Channel.short_address).Nodup → m.Nodup →
      ∀ (t' : List BusOp) (m' : List Nat) (u : Unit),
      DaliManager.match_group_channels o bus g re cs t m = (t', m', .ok u) →
      m'.Nodup ∧
      (∀ x, x ∉ cs.map Channel.short_address → (x ∈ m' ↔ x ∈ m)) ∧
      (∀ c ∈ cs, (re c.description = true → c.short_address ∈ m') ∧
                 (re c.description = false → c.short_address ∉ m')) := by
  intro cs
  induction cs with
  | nil =>
    intro t m hcs hm t' m' u h
    have hm' : m = m' := congrArg (fun x => x.2.1) h
    subst hm'
    exact ⟨hm, fun x _ => Iff.rfl, fun c hc => absurd hc (List.not_mem_nil c)⟩
  | cons c rest ih =>
    intro t m hcs hm t' m' u h
    have hcaddr : c.short_address ∉ rest.map Channel.short_address :=
      (List.nodup_cons.mp (by simpa using hcs)).1
    have hcsrest : (rest.map Channel.short_address).Nodup :=
      (List.nodup_cons.mp (by simpa using hcs)).2
    by_cases hre : re c.description = true
    · rw [DaliManager.match_group_channels, if_pos hre] at h
      by_cases hmem : c.short_address ∈ m
      · rw [if_pos hmem] at h
        obtain ⟨hnd, hframe, hall⟩ := ih t m hcsrest hm t' m' u h
        refine ⟨hnd, ?_, ?_⟩
        · intro x hx
          simp only [List.map_cons, List.mem_cons, not_or] at hx
          exact hframe x hx.2
        · intro c' hc'
          rcases List.mem_cons.mp hc' with hceq | hcrest
          · rw [hceq]
            refine ⟨fun _ => (hframe c.short_address hcaddr).mpr hmem, fun hfalse => ?_⟩
            rw [hre] at hfalse
            exact Bool.noConfusion hfalse
          · exact hall c' hcrest
      · rw [if_neg hmem] at h
        rcases hdev : DaliManager.add_to_group_and_verify o t bus g c.short_address with ⟨t₁, rdev⟩
        rw [hdev] at h
        cases rdev with
        | error e =>
          have hcontra := congrArg (fun x => x.2.2) h
          simp at hcontra
        | ok vdev =>
          have hm1 : (m ++ [c.short_address]).Nodup :=
            (List.perm_append_singleton _ _).nodup_iff.mpr (List.nodup_cons.mpr ⟨hmem, hm⟩)
          obtain ⟨hnd, hframe, hall⟩ := ih t₁ (m ++ [c.short_address]) hcsrest hm1 t' m' u h
          refine ⟨hnd, ?_, ?_⟩
          · intro x hx
            simp only [List.map_cons, List.mem_cons, not_or] at hx
            rw [hframe x hx.2]
            simp [hx.1]
          · intro c' hc'
            rcases List.mem_cons.mp hc' with hceq | hcrest
            · rw [hceq]
              refine ⟨fun _ => ?_, fun hfalse => ?_⟩
              · exact (hframe c.short_address hcaddr).mpr (by simp)
              · rw [hre] at hfalse
                exact Bool.noConfusion hfalse
            · exact hall c' hcrest
    · have hre' : re c.description = false := Bool.eq_false_iff.mpr hre
      rw [DaliManager.match_group_channels, if_neg hre] at h
      by_cases hmem : c.short_address ∈ m
      · rw [if_pos hmem] at h
        rcases hdev : DaliManager.remove_from_group_and_verify o t bus g c.short_address with ⟨t₁, rdev⟩
        rw [hdev] at h
        cases rdev with
        | error e =>
          have hcontra := congrArg (fun x => x.2.2) h
          simp at hcontra
        | ok vdev =>
          have hm1 : (m.erase c.short_address).Nodup := hm.erase _
          obtain ⟨hnd, hframe, hall⟩ := ih t₁ (m.erase c.short_address) hcsrest hm1 t' m' u h
          refine ⟨hnd, ?_, ?_⟩
          · intro x hx
            simp only [List.map_cons, List.mem_cons, not_or] at hx
            rw [hframe x hx.2]
            exact List.mem_erase_of_ne hx.1
          · intro c' hc'
            rcases List.mem_cons.mp hc' with hceq | hcrest
            · rw [hceq]
              refine ⟨fun htrue => ?_, fun _ => ?_⟩
              · exact absurd htrue hre
              · intro hcon
                have hin := (hframe c.short_address hcaddr).mp hcon
                exact (hm.mem_erase_iff.mp hin).1 rfl
            · exact hall c' hcrest
      · rw [if_neg hmem] at h
        obtain ⟨hnd, hframe, hall⟩ := ih t m hcsrest hm t' m' u h
        refine ⟨hnd, ?_, ?_⟩
        · intro x hx
          simp only [List.map_cons, List.mem_cons, not_or] at hx
          exact hframe x hx.2
        · intro c' hc'
          rcases List.mem_cons.mp hc' with hceq | hcrest
          · rw [hceq]
            refine ⟨fun htrue => ?_, fun _ => ?_⟩
            · exact absurd htrue hre
            · intro hcon
              exact hmem ((hframe c.short_address hcaddr).mp hcon)
          · exact hall c' hcrest

/-- When the member list already reconciles every channel against the
pattern, the channel pass issues no bus operation and changes nothing. -/
theorem match_group_channels_noop (o : Oracle) (bus g : Nat) (re : String → Bool) :
    ∀ (cs : List Channel) (t : List BusOp) (m : List Nat),
      (∀ c ∈ cs, (re c.description = true → c.short_address ∈ m) ∧
                 (re c.description = false → c.short_address ∉ m)) →
      DaliManager.match_group_channels o bus g re cs t m = (t, m, .ok ()) := by
  intro cs
  induction cs with
  | nil => intro t m _; rfl
  | cons c rest ih =>
    intro t m hall
    have hc := hall c (List.mem_cons_self c rest)
    by_cases hre : re c.description = true
    · rw [DaliManager.match_group_channels, if_pos hre, if_pos (hc.1 hre)]
      exact ih t m (fun c' hc' => hall c' (List.mem_cons_of_mem _ hc'))
    · have hre' : re c.description = false := Bool.eq_false_iff.mpr hre
      rw [DaliManager.match_group_channels, if_neg hre, if_neg (hc.2 hre')]
      exact ih t m (fun c' hc' => hall c' (List.mem_cons_of_mem _ hc'))

/-- A second `match_group` run on an already-reconciled configuration: same
trace, same configuration, success. -/
theorem match_group_second_run (o₂ : Oracle) (t₂ : List BusOp) (cfg : BusConfig)
    (g : Nat) (re : String → Bool) (groups₀ : List Group) (m₀ m₁ : List Nat)
    (hhas₀ : DaliManager.hasGroup groups₀ g = true)
    (hget₀ : DaliManager.getMembersIn groups₀ g = some m₀)
    (hall : ∀ c ∈ cfg.channels, (re c.description = true → c.short_address ∈ m₁) ∧
            (re c.description = false → c.short_address ∉ m₁)) :
    DaliManager.match_group o₂ t₂
        { cfg with groups := DaliManager.setMembersIn groups₀ g m₁ } g re =
      (t₂, { cfg with groups := DaliManager.setMembersIn groups₀ g m₁ }, .ok .none) := by
  have hhasC : DaliManager.hasGroup (DaliManager.setMembersIn groups₀ g m₁) g = true := by
    rw [hasGroup_setMembersIn]; exact hhas₀
  have hgetC : DaliManager.getMembersIn (DaliManager.setMembersIn groups₀ g m₁) g = some m₁ :=
    getMembersIn_setMembersIn groups₀ g m₁ m₀ hget₀
  have hnoop := match_group_channels_noop o₂ cfg.bus g re cfg.channels t₂ m₁ hall
  unfold DaliManager.match_group
  simp only [hhasC, if_true, hgetC, hnoop, setMembersIn_setMembersIn]

/-- C8: running `match_group` a second time with the same pattern predicate
on the configuration produced by a successful first run issues no bus
commands at all — in particular no `add_to_group` or `remove_from_group` —
and leaves the group's member list (indeed the whole bus configuration)
unchanged.  Hypotheses: channel short addresses are unique on the bus and the
target group's member list is duplicate-free (the data-model invariants). -/
theorem claim_C8 (o₁ o₂ : Oracle) (t₁ t₂ : List BusOp) (cfg : BusConfig)
    (g : Nat) (re : String → Bool)
    (hchan : (cfg.channels.map Channel.short_address).Nodup)
    (hmem : ∀ grp ∈ cfg.groups, grp.group_address = g → grp.members.Nodup)
    (t₁' : List BusOp) (cfg₁ : BusConfig) (r : DaliBusResult)
    (h1 : DaliManager.match_group o₁ t₁ cfg g re = (t₁', cfg₁, .ok r)) :
    DaliManager.match_group o₂ t₂ cfg₁ g re = (t₂, cfg₁, .ok .none) := by
  unfold DaliManager.match_group at h1
  by_cases hhas : DaliManager.hasGroup cfg.groups g = true
  · simp only [hhas, if_true] at h1
    obtain ⟨m₀, hget₀⟩ := getMembersIn_of_hasGroup cfg.groups g hhas
    have hm₀ : m₀.Nodup := by
      obtain ⟨grp, hgrp, haddr, hmem'⟩ := getMembersIn_found cfg.groups g m₀ hget₀
      rw [← hmem']
      exact hmem grp hgrp haddr
    simp only [hget₀] at h1
    rcases hloop : DaliManager.match_group_channels o₁ cfg.bus g re cfg.channels t₁ m₀ with
      ⟨t₁'', m₁, rl⟩
    cases rl with
    | error e =>
      simp only [hloop] at h1
      have hcontra := congrArg (fun x => x.2.2) h1
      simp at hcontra
    | ok u =>
      simp only [hloop] at h1
      obtain ⟨-, -, hall⟩ :=
        match_group_channels_ok_invariant o₁ cfg.bus g re cfg.channels t₁ m₀
          hchan hm₀ t₁'' m₁ u hloop
      have hcfg₁ : { cfg with groups := DaliManager.setMembersIn cfg.groups g m₁ } = cfg₁ :=
        congrArg (fun x => x.2.1) h1
      rw [← hcfg₁]
      exact match_group_second_run o₂ t₂ cfg g re cfg.groups m₀ m₁ hhas hget₀ hall
  · have hhas' : DaliManager.hasGroup cfg.groups g = false := Bool.eq_false_iff.mpr hhas
    simp only [hhas', Bool.false_eq_true, if_false] at h1
    have hget₀ : DaliManager.getMembersIn
        (cfg.groups ++ [⟨g, "New-Group " ++ toString g, []⟩]) g = some [] :=
      getMembersIn_append_new cfg.groups g _ [] hhas'
    simp only [hget₀] at h1
    rcases hloop : DaliManager.match_group_channels o₁ cfg.bus g re cfg.channels t₁ [] with
      ⟨t₁'', m₁, rl⟩
    cases rl with
    | error e =>
      simp only [hloop] at h1
      have hcontra := congrArg (fun x => x.2.2) h1
      simp at hcontra
    | ok u =>
      simp only [hloop] at h1
      obtain ⟨-, -, hall⟩ :=
        match_group_channels_ok_invariant o₁ cfg.bus g re cfg.channels t₁ []
          hchan List.nodup_nil t₁'' m₁ u hloop
      have hcfg₁ : { cfg with
          groups := DaliManager.setMembersIn
            (cfg.groups ++ [⟨g, "New-Group " ++ toString g, []⟩]) g m₁ } = cfg₁ :=
        congrArg (fun x => x.2.1) h1
      rw [← hcfg₁]
      exact match_group_second_run o₂ t₂ cfg g re
        (cfg.groups ++ [⟨g, "New-Group " ++ toString g, []⟩]) [] m₁
        (hasGroup_append_new cfg.groups g _ []) hget₀ hall

/-- C8 witness: on a one-channel Active bus whose group 3 does not yet exist,
a first `match_group` run (device acknowledging membership) adds channel 0;
the second run with the same predicate changes neither the trace nor the
configuration. -/
theorem claim_C8_witness :
    DaliManager.match_group allNoneOracle [] (⟨"Bus-1", .Active, 0, [⟨0, "A"⟩],
        [⟨3, "New-Group 3", [0]⟩]⟩ : BusConfig) 3 (fun s => s == "A") =
      ([], ⟨"Bus-1", .Active, 0, [⟨0, "A"⟩], [⟨3, "New-Group 3", [0]⟩]⟩, .ok .none) := by
  have h := claim_C8 allValue255Oracle allNoneOracle [] [] oneChannelBus 3
    (fun s => s == "A") (by decide) (by simp [oneChannelBus])
    [.send2rep 0 1 0x63, .send2 0 1 0xc0, .send2 0 1 0xc1]
    ⟨"Bus-1", .Active, 0, [⟨0, "A"⟩], [⟨3, "New-Group 3", [0]⟩]⟩ .none (by decide)
  exact h

end Dali
